import Mathlib

/-!
# NeoPixel SPI/DMA driver (`source/spi_pixl.c`)

A shallow embedding of `spi_pixl_update`, `DMA1_IRQHandler` and
`spi_pixl_init` (with `_init_dma1` and `_init_spi0`) and the properties of the
pulse encoding and of the transmit state machine.

Machine words are natural numbers; the 32-bit read-modify-write operations on
peripheral registers are written with explicit 32-bit masks.  The two busy-wait
loops of `spi_pixl_update` poll state that only changes asynchronously (the
completion interrupt, the microsecond timer); the asynchronous side is an
explicit environment `Env`, and a poll budget bounds how long a run is
followed, so that a run still inside a busy-wait is a value (`Outcome.spinning`)
and not a missing result.  The completion interrupt is considered between
calls and where a call waits for it, in the drain loop: once the flag has been
read true no transfer is in flight until the call arms the next one as its
last step.
Every read of asynchronous state and every store is also recorded, in program
order, in a trace, on which the ordering properties are stated.
-/

namespace SpiPixl

/-! ## Constants of `spi_pixl.c` -/

/-- The pulse byte for a 0 bit (`#define PIXL_0 (0x80)`). -/
def PIXL_0 : Nat := 0x80

/-- The pulse byte for a 1 bit (`#define PIXL_1 (0xFE)`). -/
def PIXL_1 : Nat := 0xFE

/-- Reset interval in microseconds (`#define PIXL_RESET (70)`). -/
def PIXL_RESET : Nat := 70

/-- Pulse bytes per pixel (`#define BITS_PER_PIXEL (24)`). -/
def BITS_PER_PIXEL : Nat := 24

/-- Red channel of a colour word (`#define RED_MASK (0xFF0000)`). -/
def RED_MASK : Nat := 0xFF0000

/-- Green channel of a colour word (`#define GRN_MASK (0x00FF00)`). -/
def GRN_MASK : Nat := 0x00FF00

/-- Blue channel of a colour word (`#define BLU_MASK (0x0000FF)`). -/
def BLU_MASK : Nat := 0x0000FF

/-- Pin multiplexer alternative of the SPI function (`#define SPI_MUX_ALT (2)`). -/
def SPI_MUX_ALT : Nat := 2

/-! ## Register field macros of the device header

`MKL25Z4.h` is not part of the sources at hand; the fields below are the ones
`spi_pixl_update` and `DMA1_IRQHandler` name. -/

/-- Modelled from the spec: `MKL25Z4.h` is missing; the MUX field of a pin-control
register, which the claims call the pin's MUX field, is bits 10..8. -/
def PORT_PCR_MUX_MASK : Nat := 0x700

/-- Modelled from the spec: `MKL25Z4.h` is missing; `PORT_PCR_MUX(x)` places `x`
in the MUX field (shift 8, masked to the field). -/
def PORT_PCR_MUX (x : Nat) : Nat := (x <<< 8) &&& PORT_PCR_MUX_MASK

/-- Modelled from the spec: `MKL25Z4.h` is missing; `DMA_DSR_BCR_BCR(x)` places `x`
in the byte-count field, bits 23..0 of `DSR_BCR`. -/
def DMA_DSR_BCR_BCR (x : Nat) : Nat := x &&& 0xFFFFFF

/-- Modelled from the spec: `MKL25Z4.h` is missing; the DONE bit of `DSR_BCR`
is bit 24. -/
def DMA_DSR_BCR_DONE_MASK : Nat := 0x1000000

/-- Modelled from the spec: `MKL25Z4.h` is missing; `DMA_SAR_SAR(x)` is the whole
32-bit source address register. -/
def DMA_SAR_SAR (x : Nat) : Nat := x &&& 0xFFFFFFFF

/-- Modelled from the spec: `MKL25Z4.h` is missing; the peripheral-request
enable bit ERQ of `DCR` is bit 30. -/
def DMA_DCR_ERQ_MASK : Nat := 0x40000000

/-- Bitwise complement of a 32-bit word (`~x` on `uint32_t`). -/
def not32 (x : Nat) : Nat := 0xFFFFFFFF ^^^ (x % 2 ^ 32)

/-! ## Data model -/

/-- Build-time facts the translation unit takes from outside: `NUM_PIXELS`
comes from `spi_pixl.h` (missing), the address of the static buffer from the
linker. -/
structure Target where
  /-- The value of `NUM_PIXELS`, the number of pixels the buffer is sized for. -/
  NUM_PIXELS : Nat
  /-- The value of `&spi_output`. -/
  spi_output_addr : Nat

/-- The peripheral registers that only the initialisation stores to. -/
inductive Reg where
  /-- The register `SIM->SCGC4`. -/
  | SIM_SCGC4
  /-- The register `SIM->SCGC5`. -/
  | SIM_SCGC5
  /-- The register `SIM->SCGC6`. -/
  | SIM_SCGC6
  /-- The register `SIM->SCGC7`. -/
  | SIM_SCGC7
  /-- The register `SPI0->C1`. -/
  | SPI0_C1
  /-- The register `SPI0->C2`. -/
  | SPI0_C2
  /-- The register `SPI0->BR`. -/
  | SPI0_BR
  /-- The register `PORTD->PCR[SPI_SCK_PIN]`. -/
  | PCR_SCK
  /-- The register `DMAMUX0->CHCFG[1]`. -/
  | DMAMUX_CHCFG1
  /-- The register `DMA0->DMA[1].DAR`. -/
  | DMA_DAR
  deriving DecidableEq, Repr

/-- The functions of other translation units that the initialisation calls. -/
inductive Callee where
  /-- The function `systick_init` of the timer module. -/
  | systick_init
  /-- The core function `NVIC_SetPriority`. -/
  | NVIC_SetPriority
  /-- The core function `NVIC_ClearPendingIRQ`. -/
  | NVIC_ClearPendingIRQ
  /-- The core function `NVIC_EnableIRQ`. -/
  | NVIC_EnableIRQ
  deriving DecidableEq, Repr

/-- What a run does, in program order.  The stores of the completion handler
happen in interrupt context and appear as the single event `irq`. -/
inductive Event where
  /-- One evaluation of `is_pixel_xmit_complete` by the drain loop. -/
  | readFlag (v : Bool)
  /-- The call `reset_timer()`. -/
  | resetTimer
  /-- One call `get_timer_us()` and the value it returned. -/
  | readTimer (v : Nat)
  /-- A store to `PORTD->PCR[SPI_MOSI_PIN]`. -/
  | writePCR (v : Nat)
  /-- A store `spi_output[idx] = v`. -/
  | writeBuf (idx v : Nat)
  /-- A store to `DMA0->DMA[1].DSR_BCR`. -/
  | writeBCR (v : Nat)
  /-- A store to `DMA0->DMA[1].SAR`. -/
  | writeSAR (v : Nat)
  /-- A store to `is_pixel_xmit_complete` by `spi_pixl_update`. -/
  | writeFlag (v : Bool)
  /-- A store to `DMA0->DMA[1].DCR`. -/
  | writeDCR (v : Nat)
  /-- One run of `DMA1_IRQHandler`. -/
  | irq
  /-- A store, by the initialisation, to a register that only it touches. -/
  | writeReg (r : Reg) (v : Nat)
  /-- A call, by the initialisation, of a function of another translation unit. -/
  | call (f : Callee)
  deriving DecidableEq, Repr

/-- The statics of `spi_pixl.c` and the peripheral registers it touches in
`spi_pixl_update` and `DMA1_IRQHandler`. -/
structure State where
  /-- The array `static uint8_t spi_output[NUM_PIXELS*BITS_PER_PIXEL]`, by index. -/
  spi_output : Nat → Nat
  /-- Stores through `spi_output` at an index past the end of the array, as
  (index, value), in program order. -/
  oob : List (Nat × Nat)
  /-- The flag `static volatile bool is_pixel_xmit_complete`. -/
  is_pixel_xmit_complete : Bool
  /-- The microsecond counter behind `reset_timer` and `get_timer_us`. -/
  timer : Nat
  /-- The register `PORTD->PCR[SPI_MOSI_PIN]`. -/
  pcr_mosi : Nat
  /-- The register `DMA0->DMA[1].DSR_BCR`. -/
  dsr_bcr : Nat
  /-- The register `DMA0->DMA[1].SAR`. -/
  sar : Nat
  /-- The register `DMA0->DMA[1].DCR`. -/
  dcr : Nat
  /-- The events so far, oldest first. -/
  trace : List Event

/-- The asynchronous side of a call of `spi_pixl_update`. -/
structure Env where
  /-- Whether the DMA channel-1 completion interrupt is served just before
  the `k`-th evaluation of the flag in the drain loop. -/
  irq : Nat → Bool
  /-- Microseconds that pass just before the `k`-th call of `get_timer_us`
  in the reset wait. -/
  elapsed : Nat → Nat

/-- Append an event to the trace. -/
def State.log (s : State) (e : Event) : State :=
  { s with trace := s.trace ++ [e] }

/-! ## The completion handler -/

/-- The handler `DMA1_IRQHandler` (lines 180-190):
`DSR_BCR |= DONE`, flag `= true`, `PCR[MOSI] &= ~MUX_MASK`. -/
def DMA1_IRQHandler (s : State) : State :=
  let s := { s with dsr_bcr := s.dsr_bcr ||| DMA_DSR_BCR_DONE_MASK }
  let s := { s with is_pixel_xmit_complete := true }
  let s := { s with pcr_mosi := s.pcr_mosi &&& not32 PORT_PCR_MUX_MASK }
  s.log Event.irq

/-! ## The timer interface -/

/-- Modelled from the spec: `timer.h` is missing; `reset_timer()` restarts the
external monotonic microsecond counter at zero. -/
def reset_timer (s : State) : State :=
  ({ s with timer := 0 }).log Event.resetTimer

/-- Modelled from the spec: `timer.h` is missing; `get_timer_us()` returns the
microseconds elapsed since the last reset.  The time that passed since the
previous poll is added first. -/
def get_timer_us (passed : Nat) (s : State) : Nat × State :=
  let t := s.timer + passed
  (t, ({ s with timer := t }).log (Event.readTimer t))

/-! ## The encoder -/

/-- The locals of `spi_pixl_update` that the pixel loop updates, with the
state of the statics. -/
structure Locals where
  /-- The statics and registers. -/
  st : State
  /-- The local `int spi_idx`. -/
  spi_idx : Nat
  /-- The local `uint32_t *color`, as an offset in words from `rgb_24bit_colors`. -/
  color : Nat

/-- The store `spi_output[idx] = v`.  An index inside the array updates it;
an index past its end lands outside the array and is recorded in `oob`. -/
def storePulse (T : Target) (idx v : Nat) (s : State) : State :=
  if idx < T.NUM_PIXELS * BITS_PER_PIXEL then
    ({ s with spi_output := Function.update s.spi_output idx v }).log (Event.writeBuf idx v)
  else
    ({ s with oob := s.oob ++ [(idx, v)] }).log (Event.writeBuf idx v)

/-- The body shared by the three mask loops (lines 67-72):
`if (*color & mask) spi_output[spi_idx] = PIXL_1; else spi_output[spi_idx] = PIXL_0; spi_idx++;`. -/
def emit (T : Target) (colors : Nat → Nat) (mask : Nat) (l : Locals) : Locals :=
  let st := if colors l.color &&& mask ≠ 0 then storePulse T l.spi_idx PIXL_1 l.st
            else storePulse T l.spi_idx PIXL_0 l.st
  { l with st := st, spi_idx := l.spi_idx + 1 }

/-- The loop `for (mask = m; mask > lo; mask >>= 1) { body }`, entered with
`mask` already initialised. -/
def maskLoop (T : Target) (colors : Nat → Nat) (lo : Nat) (mask : Nat) (l : Locals) : Locals :=
  if mask > lo then maskLoop T colors lo (mask >>> 1) (emit T colors mask l) else l
termination_by mask
decreasing_by
  simp only [Nat.shiftRight_succ, Nat.shiftRight_zero]
  omega

/-- The body of the pixel loop (lines 65-94): green, then red, then blue, then `color++`. -/
def pixelBody (T : Target) (colors : Nat → Nat) (l : Locals) : Locals :=
  let l := maskLoop T colors 0x80 0x8000 l
  let l := maskLoop T colors 0x8000 0x800000 l
  let l := maskLoop T colors 0 0x80 l
  { l with color := l.color + 1 }

/-- The loop `for (i = 0; i < npixels; i++) { body }`, entered with `i`
already initialised. -/
def pixelLoop (T : Target) (colors : Nat → Nat) (npixels : Nat) (i : Nat) (l : Locals) : Locals :=
  if i < npixels then pixelLoop T colors npixels (i + 1) (pixelBody T colors l) else l
termination_by npixels - i

/-! ## The busy-wait loops and `spi_pixl_update` -/

/-- Where a busy-wait stands when it is left or when the poll budget is used up. -/
inductive Poll where
  /-- The loop condition was read false: the loop is left. -/
  | passed (s : State)
  /-- The budget is used up with the loop condition still true. -/
  | pending (s : State)

/-- The drain loop `while (!is_pixel_xmit_complete) {;}` (line 48), followed
for at most `fuel` evaluations of the flag; `k` counts the evaluations made.
The completion interrupt, when the environment raises it, is served before
the flag is read. -/
def waitXmit (env : Env) : Nat → Nat → State → Poll
  | 0, _, s => Poll.pending s
  | fuel + 1, k, s =>
    let s := if env.irq k then DMA1_IRQHandler s else s
    let flag := s.is_pixel_xmit_complete
    let s := s.log (Event.readFlag flag)
    if !flag then waitXmit env fuel (k + 1) s else Poll.passed s

/-- The reset wait `while (get_timer_us() < PIXL_RESET) {;}` (line 100),
followed for at most `fuel` calls of `get_timer_us`; `k` counts the calls made. -/
def waitReset (env : Env) : Nat → Nat → State → Poll
  | 0, _, s => Poll.pending s
  | fuel + 1, k, s =>
    let (t, s) := get_timer_us (env.elapsed k) s
    if t < PIXL_RESET then waitReset env fuel (k + 1) s else Poll.passed s

/-- Lines 102-122: load the byte count, the source address, clear the flag,
route the pin to the SPI, enable the peripheral request. -/
def arm (T : Target) (s : State) : State :=
  let v := s.dsr_bcr ||| DMA_DSR_BCR_BCR (BITS_PER_PIXEL * T.NUM_PIXELS)
  let s := ({ s with dsr_bcr := v }).log (Event.writeBCR v)
  let v := DMA_SAR_SAR (T.spi_output_addr % 2 ^ 32)
  let s := ({ s with sar := v }).log (Event.writeSAR v)
  let s := ({ s with is_pixel_xmit_complete := false }).log (Event.writeFlag false)
  let v := s.pcr_mosi ||| PORT_PCR_MUX SPI_MUX_ALT
  let s := ({ s with pcr_mosi := v }).log (Event.writePCR v)
  let v := s.dcr ||| DMA_DCR_ERQ_MASK
  ({ s with dcr := v }).log (Event.writeDCR v)

/-- Lines 51-55: restart the timer and take the pin away from the SPI. -/
def startReset (s : State) : State :=
  let s := reset_timer s
  let v := s.pcr_mosi &&& not32 PORT_PCR_MUX_MASK
  ({ s with pcr_mosi := v }).log (Event.writePCR v)

/-- Lines 57-95: the locals are initialised and the pixel loop runs. -/
def encode (T : Target) (colors : Nat → Nat) (npixels : Nat) (s : State) : Locals :=
  pixelLoop T colors npixels 0 { st := s, spi_idx := 0, color := 0 }

/-- How a call of `spi_pixl_update` stands once the poll budget of each
busy-wait is taken into account. -/
inductive Outcome where
  /-- The call returned `ret`, leaving the state `s`. -/
  | returned (ret : Int) (s : State)
  /-- The call is still inside a busy-wait, the state being `s`. -/
  | spinning (s : State)

/-- The state an outcome carries. -/
def Outcome.state : Outcome → State
  | Outcome.returned _ s => s
  | Outcome.spinning s => s

/-- The function `spi_pixl_update(rgb_24bit_colors, npixels)` (lines 42-125).
A null `rgb_24bit_colors` is `none`; a non-null one is the words it points at,
by index.  Each busy-wait is followed for at most `fuel` polls. -/
def spi_pixl_update (T : Target) (env : Env) (fuel : Nat)
    (rgb_24bit_colors : Option (Nat → Nat)) (npixels : Nat) (s : State) : Outcome :=
  match rgb_24bit_colors with
  | none => Outcome.returned (-1) s
  | some colors =>
    if npixels ≤ 0 then Outcome.returned (-1) s
    else
      match waitXmit env fuel 0 s with
      | Poll.pending s => Outcome.spinning s
      | Poll.passed s =>
        let s := startReset s
        let l := encode T colors npixels s
        match waitReset env fuel 0 l.st with
        | Poll.pending s => Outcome.spinning s
        | Poll.passed s => Outcome.returned 0 (arm T s)

/-! ## Vocabulary of the statements -/

/-- The pulse byte of a bit: `PIXL_1` for a set bit, `PIXL_0` for a clear one. -/
def pulse (b : Bool) : Nat := if b then PIXL_1 else PIXL_0

/-- The value `get_timer_us` returns at its `k`-th call after a reset. -/
def timerAt (env : Env) : Nat → Nat
  | 0 => env.elapsed 0
  | k + 1 => timerAt env k + env.elapsed (k + 1)

/-- The MUX field of a pin-control register value. -/
def muxField (pcr : Nat) : Nat := (pcr &&& PORT_PCR_MUX_MASK) >>> 8

/-- The events of an outcome that the call itself added to the trace of `s`. -/
def newEvents (s : State) (o : Outcome) : List Event :=
  o.state.trace.drop s.trace.length

/-- The value one pass of a mask-loop body stores: `PIXL_1` when `c & mask`
is non-zero, `PIXL_0` otherwise. -/
def emitVal (c mask : Nat) : Nat := if c &&& mask ≠ 0 then PIXL_1 else PIXL_0

/-- The loop body run once for each mask of a list, in order. -/
def emits (T : Target) (colors : Nat → Nat) (masks : List Nat) (l : Locals) : Locals :=
  masks.foldl (fun l m => emit T colors m l) l

/-- The masks the three loops of one pixel go through, in program order. -/
def pixelMasks : List Nat :=
  [0x8000, 0x4000, 0x2000, 0x1000, 0x800, 0x400, 0x200, 0x100,
   0x800000, 0x400000, 0x200000, 0x100000, 0x80000, 0x40000, 0x20000, 0x10000,
   0x80, 0x40, 0x20, 0x10, 0x8, 0x4, 0x2, 0x1]

/-- The bit of the colour word that the `k`-th pulse byte of a pixel encodes:
bits 15..8, then 23..16, then 7..0. -/
def srcBit (k : Nat) : Nat := if k < 8 then 15 - k else if k < 16 then 31 - k else 23 - k

/-- The `j`-th pulse byte of the encoding of a colour array. -/
def encByte (colors : Nat → Nat) (j : Nat) : Nat :=
  pulse ((colors (j / 24)).testBit (srcBit (j % 24)))

/-- Whether an event is a store made by `spi_pixl_update` itself: to the
pulse buffer, the timer, the flag or a peripheral register. -/
def Event.isStore : Event → Bool
  | Event.readFlag _ => false
  | Event.readTimer _ => false
  | Event.irq => false
  | _ => true

/-- Whether an event is a store to the pulse buffer. -/
def Event.isWriteBuf : Event → Bool
  | Event.writeBuf _ _ => true
  | _ => false

/-- The stores of a run of events that land past the end of an array of `cap` bytes. -/
def oobOf (cap : Nat) (evs : List Event) : List (Nat × Nat) :=
  evs.filterMap (fun e =>
    match e with
    | Event.writeBuf i v => if i < cap then none else some (i, v)
    | _ => none)

/-- The stores of the encoder for `n` pixels, in program order. -/
def bufEvents (colors : Nat → Nat) (n : Nat) : List Event :=
  (List.range (24 * n)).map (fun j => Event.writeBuf j (encByte colors j))

/-- The five stores that arm the transfer, from the state `s` they start in. -/
def armEvents (T : Target) (s : State) : List Event :=
  [Event.writeBCR (s.dsr_bcr ||| DMA_DSR_BCR_BCR (BITS_PER_PIXEL * T.NUM_PIXELS)),
   Event.writeSAR (DMA_SAR_SAR (T.spi_output_addr % 2 ^ 32)),
   Event.writeFlag false,
   Event.writePCR (s.pcr_mosi ||| PORT_PCR_MUX SPI_MUX_ALT),
   Event.writeDCR (s.dcr ||| DMA_DCR_ERQ_MASK)]

/-! ## Sample inputs -/

/-- A target with the eight pixels of the byte-count comment (line 106). -/
def board8 : Target := { NUM_PIXELS := 8, spi_output_addr := 0x1FFFF000 }

/-- An idle controller: flag true, everything else zero. -/
def idleState : State :=
  { spi_output := fun _ => 0, oob := [], is_pixel_xmit_complete := true, timer := 0,
    pcr_mosi := 0, dsr_bcr := 0, sar := 0, dcr := 0, trace := [] }

/-- A controller with a transfer in flight: flag false, pin routed to the SPI. -/
def busyState : State :=
  { spi_output := fun _ => 0, oob := [], is_pixel_xmit_complete := false, timer := 0,
    pcr_mosi := 0x200, dsr_bcr := 0, sar := 0, dcr := 0, trace := [] }

/-- An environment without interrupts in which the encoding step takes no
time and 35 microseconds pass before each later reading of the timer. -/
def slowClock : Env :=
  { irq := fun _ => false, elapsed := fun k => if k = 0 then 0 else 35 }

/-- An environment without interrupts whose timer has already reached the
reset interval at its first reading. -/
def fastClock : Env :=
  { irq := fun _ => false, elapsed := fun _ => 70 }

/-- The byte-count field BCR of a `DSR_BCR` value, bits 23..0. -/
def bcrField (x : Nat) : Nat := x &&& 0xFFFFFF

/-! ## Initialisation -/

/-- The trigger source of SPI0 transmit (`#define DMA_SPI0_TX_TRIG (17)`). -/
def DMA_SPI0_TX_TRIG : Nat := 17

/-- The pin of the SPI clock (`#define SPI_SCK_PIN (1)`). -/
def SPI_SCK_PIN : Nat := 1

/-- The pin of the SPI data output (`#define SPI_MOSI_PIN (2)`). -/
def SPI_MOSI_PIN : Nat := 2

/-- What the initialisation takes from outside `spi_pixl.c`: the field
macros of `MKL25Z4.h` that only it uses, the address of the SPI data
register, and the effect of `systick_init` of the timer module on the
microsecond counter.  None of them is part of the sources at hand, so they
are parameters. -/
structure Deps where
  /-- The macro `SIM_SCGC4_SPI0_MASK`. -/
  SIM_SCGC4_SPI0_MASK : Nat
  /-- The macro `SIM_SCGC5_PORTD_MASK`. -/
  SIM_SCGC5_PORTD_MASK : Nat
  /-- The macro `SIM_SCGC6_DMAMUX_MASK`. -/
  SIM_SCGC6_DMAMUX_MASK : Nat
  /-- The macro `SIM_SCGC7_DMA_MASK`. -/
  SIM_SCGC7_DMA_MASK : Nat
  /-- The macro `SPI_C1_MSTR_MASK`. -/
  SPI_C1_MSTR_MASK : Nat
  /-- The macro `SPI_C1_SPE_MASK`. -/
  SPI_C1_SPE_MASK : Nat
  /-- The macro `SPI_C2_TXDMAE_MASK`. -/
  SPI_C2_TXDMAE_MASK : Nat
  /-- The macro `SPI_C2_MODFEN(x)`. -/
  SPI_C2_MODFEN : Nat → Nat
  /-- The macro `SPI_BR_SPPR(x)`. -/
  SPI_BR_SPPR : Nat → Nat
  /-- The macro `SPI_BR_SPR(x)`. -/
  SPI_BR_SPR : Nat → Nat
  /-- The macro `DMA_DCR_EINT_MASK`. -/
  DMA_DCR_EINT_MASK : Nat
  /-- The macro `DMA_DCR_SINC_MASK`. -/
  DMA_DCR_SINC_MASK : Nat
  /-- The macro `DMA_DCR_SSIZE(x)`. -/
  DMA_DCR_SSIZE : Nat → Nat
  /-- The macro `DMA_DCR_DSIZE(x)`. -/
  DMA_DCR_DSIZE : Nat → Nat
  /-- The macro `DMA_DCR_D_REQ_MASK`. -/
  DMA_DCR_D_REQ_MASK : Nat
  /-- The macro `DMA_DCR_CS_MASK`. -/
  DMA_DCR_CS_MASK : Nat
  /-- The macro `DMA_DAR_DAR(x)`. -/
  DMA_DAR_DAR : Nat → Nat
  /-- The macro `DMAMUX_CHCFG_SOURCE(x)`. -/
  DMAMUX_CHCFG_SOURCE : Nat → Nat
  /-- The macro `DMAMUX_CHCFG_ENBL_MASK`. -/
  DMAMUX_CHCFG_ENBL_MASK : Nat
  /-- The value of `&(SPI0->D)`. -/
  SPI0_D_addr : Nat
  /-- What `systick_init` leaves in the microsecond counter, from what it held. -/
  systick_timer : Nat → Nat

/-- The state that `spi_pixl_init` works on: the state of `spi_pixl_update`
and `DMA1_IRQHandler`, and the registers that only the initialisation stores
to.  The registers of the interrupt controller and of the system timer belong
to the functions called and are not part of it. -/
structure Board where
  /-- The statics and the registers of `spi_pixl_update` and `DMA1_IRQHandler`. -/
  core : State
  /-- The register `PORTD->PCR[SPI_SCK_PIN]`. -/
  pcr_sck : Nat
  /-- The register `SIM->SCGC4`. -/
  sim_scgc4 : Nat
  /-- The register `SIM->SCGC5`. -/
  sim_scgc5 : Nat
  /-- The register `SIM->SCGC6`. -/
  sim_scgc6 : Nat
  /-- The register `SIM->SCGC7`. -/
  sim_scgc7 : Nat
  /-- The 8-bit register `SPI0->C1`. -/
  spi0_c1 : Nat
  /-- The 8-bit register `SPI0->C2`. -/
  spi0_c2 : Nat
  /-- The 8-bit register `SPI0->BR`. -/
  spi0_br : Nat
  /-- The 8-bit register `DMAMUX0->CHCFG[1]`. -/
  dmamux_chcfg1 : Nat
  /-- The register `DMA0->DMA[1].DAR`. -/
  dma_dar : Nat

/-- Append an event to the trace of a board. -/
def Board.log (b : Board) (e : Event) : Board :=
  { b with core := b.core.log e }

/-- Modelled from the spec: `timer.c` is missing; `systick_init()` brings up
the free-running microsecond counter.  It cannot reach the statics of
`spi_pixl.c`; of the state at hand it touches the counter only. -/
def systick_init (D : Deps) (b : Board) : Board :=
  ({ b with core := { b.core with timer := D.systick_timer b.core.timer } }).log
    (Event.call Callee.systick_init)

/-- The function `_init_dma1` (lines 193-231). -/
def _init_dma1 (D : Deps) (b : Board) : Board :=
  let v := b.sim_scgc7 ||| D.SIM_SCGC7_DMA_MASK
  let b := ({ b with sim_scgc7 := v }).log (Event.writeReg Reg.SIM_SCGC7 v)
  let v := b.sim_scgc6 ||| D.SIM_SCGC6_DMAMUX_MASK
  let b := ({ b with sim_scgc6 := v }).log (Event.writeReg Reg.SIM_SCGC6 v)
  let b := ({ b with dmamux_chcfg1 := 0 }).log (Event.writeReg Reg.DMAMUX_CHCFG1 0)
  let v := (D.DMA_DCR_EINT_MASK ||| D.DMA_DCR_SINC_MASK ||| D.DMA_DCR_SSIZE 1 |||
    D.DMA_DCR_DSIZE 1 ||| D.DMA_DCR_D_REQ_MASK ||| D.DMA_DCR_CS_MASK) % 2 ^ 32
  let b := ({ b with core := { b.core with dcr := v } }).log (Event.writeDCR v)
  let v := D.DMA_DAR_DAR (D.SPI0_D_addr % 2 ^ 32) % 2 ^ 32
  let b := ({ b with dma_dar := v }).log (Event.writeReg Reg.DMA_DAR v)
  let b := b.log (Event.call Callee.NVIC_SetPriority)
  let b := b.log (Event.call Callee.NVIC_ClearPendingIRQ)
  let b := b.log (Event.call Callee.NVIC_EnableIRQ)
  let v := (D.DMAMUX_CHCFG_SOURCE DMA_SPI0_TX_TRIG ||| D.DMAMUX_CHCFG_ENBL_MASK) % 2 ^ 8
  ({ b with dmamux_chcfg1 := v }).log (Event.writeReg Reg.DMAMUX_CHCFG1 v)

/-- The function `_init_spi0` (lines 149-177). -/
def _init_spi0 (D : Deps) (b : Board) : Board :=
  let v := b.sim_scgc4 ||| D.SIM_SCGC4_SPI0_MASK
  let b := ({ b with sim_scgc4 := v }).log (Event.writeReg Reg.SIM_SCGC4 v)
  let v := (D.SPI_C1_MSTR_MASK ||| D.SPI_C1_SPE_MASK) % 2 ^ 8
  let b := ({ b with spi0_c1 := v }).log (Event.writeReg Reg.SPI0_C1 v)
  let v := (D.SPI_C2_TXDMAE_MASK ||| D.SPI_C2_MODFEN 0) % 2 ^ 8
  let b := ({ b with spi0_c2 := v }).log (Event.writeReg Reg.SPI0_C2 v)
  let v := (D.SPI_BR_SPPR 0 ||| D.SPI_BR_SPR 1) % 2 ^ 8
  let b := ({ b with spi0_br := v }).log (Event.writeReg Reg.SPI0_BR v)
  let v := b.sim_scgc5 ||| D.SIM_SCGC5_PORTD_MASK
  let b := ({ b with sim_scgc5 := v }).log (Event.writeReg Reg.SIM_SCGC5 v)
  let v := b.pcr_sck &&& not32 PORT_PCR_MUX_MASK
  let b := ({ b with pcr_sck := v }).log (Event.writeReg Reg.PCR_SCK v)
  let v := b.pcr_sck ||| PORT_PCR_MUX SPI_MUX_ALT
  let b := ({ b with pcr_sck := v }).log (Event.writeReg Reg.PCR_SCK v)
  let v := b.core.pcr_mosi &&& not32 PORT_PCR_MUX_MASK
  ({ b with core := { b.core with pcr_mosi := v } }).log (Event.writePCR v)

/-- The function `spi_pixl_init` (lines 128-137). -/
def spi_pixl_init (D : Deps) (b : Board) : Board :=
  let b := systick_init D b
  let b := _init_dma1 D b
  let b := _init_spi0 D b
  ({ b with core := { b.core with is_pixel_xmit_complete := true } }).log
    (Event.writeFlag true)

/-- One step of the driver's life after initialisation: the completion
handler runs, or `spi_pixl_update` is called. -/
inductive Step where
  /-- One run of `DMA1_IRQHandler` between calls. -/
  | handler
  /-- One call of `spi_pixl_update`, with its environment and poll budget. -/
  | update (env : Env) (fuel : Nat) (rgb_24bit_colors : Option (Nat → Nat)) (npixels : Nat)

/-- The state after a sequence of steps, each call of `spi_pixl_update` run
to its return; `none` when a call is still inside a busy-wait at the end of
its budget. -/
def runSteps (T : Target) : List Step → State → Option State
  | [], s => some s
  | Step.handler :: rest, s => runSteps T rest (DMA1_IRQHandler s)
  | Step.update env fuel colors n :: rest, s =>
    match spi_pixl_update T env fuel colors n s with
    | Outcome.returned _ s' => runSteps T rest s'
    | Outcome.spinning _ => none

/-- A header for the sample runs, with the field layout of the KL25Z. -/
def sampleDeps : Deps :=
  { SIM_SCGC4_SPI0_MASK := 0x400000, SIM_SCGC5_PORTD_MASK := 0x1000,
    SIM_SCGC6_DMAMUX_MASK := 0x2, SIM_SCGC7_DMA_MASK := 0x100,
    SPI_C1_MSTR_MASK := 0x10, SPI_C1_SPE_MASK := 0x40, SPI_C2_TXDMAE_MASK := 0x20,
    SPI_C2_MODFEN := fun x => (x <<< 4) &&& 0x10,
    SPI_BR_SPPR := fun x => (x <<< 4) &&& 0x70, SPI_BR_SPR := fun x => x &&& 0xF,
    DMA_DCR_EINT_MASK := 0x80000000, DMA_DCR_SINC_MASK := 0x400000,
    DMA_DCR_SSIZE := fun x => (x <<< 20) &&& 0x300000,
    DMA_DCR_DSIZE := fun x => (x <<< 17) &&& 0x60000,
    DMA_DCR_D_REQ_MASK := 0x80, DMA_DCR_CS_MASK := 0x20000000,
    DMA_DAR_DAR := fun x => x &&& 0xFFFFFFFF,
    DMAMUX_CHCFG_SOURCE := fun x => x &&& 0x3F, DMAMUX_CHCFG_ENBL_MASK := 0x80,
    SPI0_D_addr := 0x40076005, systick_timer := fun _ => 0 }

/-- A board before initialisation: a transfer seemingly in flight, the MOSI
pin routed to the SPI, every other register zero. -/
def coldBoard : Board :=
  { core := busyState, pcr_sck := 0, sim_scgc4 := 0, sim_scgc5 := 0, sim_scgc6 := 0,
    sim_scgc7 := 0, spi0_c1 := 0, spi0_c2 := 0, spi0_br := 0, dmamux_chcfg1 := 0,
    dma_dar := 0 }

/-- The pulse bytes of one pixel, as the stores of the pixel-loop body. -/
def pixelEvents (c base : Nat) : List Event :=
  (List.range 24).map (fun k => Event.writeBuf (base + k) (pulse (c.testBit (srcBit k))))

/-! ## The encoder, loop by loop -/

theorem and_two_pow_ne_zero (c i : Nat) : c &&& 2 ^ i ≠ 0 ↔ c.testBit i = true := by
  constructor
  · intro h
    by_contra hc
    apply h
    apply Nat.eq_of_testBit_eq
    intro j
    simp only [Nat.testBit_and, Nat.testBit_two_pow, Nat.zero_testBit]
    by_cases hij : i = j
    · subst hij; simp [hc]
    · simp [hij]
  · intro h h0
    have h1 : (c &&& 2 ^ i).testBit i = true := by
      simp [Nat.testBit_and, Nat.testBit_two_pow, h]
    rw [h0] at h1
    simp at h1

theorem emitVal_two_pow (c i : Nat) : emitVal c (2 ^ i) = pulse (c.testBit i) := by
  unfold emitVal pulse
  by_cases h : c.testBit i = true
  · rw [if_pos ((and_two_pow_ne_zero c i).2 h), if_pos h]
  · rw [if_neg (fun h1 => h ((and_two_pow_ne_zero c i).1 h1)), if_neg h]

theorem pixelMasks_getD (k : Nat) (hk : k < 24) : pixelMasks.getD k 0 = 2 ^ srcBit k := by
  interval_cases k <;> rfl

theorem emit_st (T : Target) (colors : Nat → Nat) (mask : Nat) (l : Locals) :
    (emit T colors mask l).st = storePulse T l.spi_idx (emitVal (colors l.color) mask) l.st := by
  unfold emit emitVal
  split <;> rfl

theorem emit_spi_idx (T : Target) (colors : Nat → Nat) (mask : Nat) (l : Locals) :
    (emit T colors mask l).spi_idx = l.spi_idx + 1 := rfl

theorem emit_color (T : Target) (colors : Nat → Nat) (mask : Nat) (l : Locals) :
    (emit T colors mask l).color = l.color := rfl

theorem pixelBody_eq (T : Target) (colors : Nat → Nat) (l : Locals) :
    pixelBody T colors l =
      { emits T colors pixelMasks l with color := (emits T colors pixelMasks l).color + 1 } := by
  simp [pixelBody, maskLoop, emits, pixelMasks]

theorem storePulse_flag (T : Target) (i v : Nat) (s : State) :
    (storePulse T i v s).is_pixel_xmit_complete = s.is_pixel_xmit_complete := by
  unfold storePulse; split <;> rfl

theorem storePulse_timer (T : Target) (i v : Nat) (s : State) :
    (storePulse T i v s).timer = s.timer := by
  unfold storePulse; split <;> rfl

theorem storePulse_pcr (T : Target) (i v : Nat) (s : State) :
    (storePulse T i v s).pcr_mosi = s.pcr_mosi := by
  unfold storePulse; split <;> rfl

theorem storePulse_bcr (T : Target) (i v : Nat) (s : State) :
    (storePulse T i v s).dsr_bcr = s.dsr_bcr := by
  unfold storePulse; split <;> rfl

theorem storePulse_sar (T : Target) (i v : Nat) (s : State) :
    (storePulse T i v s).sar = s.sar := by
  unfold storePulse; split <;> rfl

theorem storePulse_dcr (T : Target) (i v : Nat) (s : State) :
    (storePulse T i v s).dcr = s.dcr := by
  unfold storePulse; split <;> rfl

theorem storePulse_trace (T : Target) (i v : Nat) (s : State) :
    (storePulse T i v s).trace = s.trace ++ [Event.writeBuf i v] := by
  unfold storePulse; split <;> rfl

theorem storePulse_output (T : Target) (i v : Nat) (s : State) (j : Nat) :
    (storePulse T i v s).spi_output j =
      if j = i ∧ i < T.NUM_PIXELS * BITS_PER_PIXEL then v else s.spi_output j := by
  unfold storePulse
  by_cases hi : i < T.NUM_PIXELS * BITS_PER_PIXEL
  · by_cases hj : j = i
    · subst hj; simp [hi, State.log]
    · simp [hi, hj, State.log, Function.update_noteq hj]
  · simp [hi, State.log]

theorem storePulse_oob (T : Target) (i v : Nat) (s : State) :
    (storePulse T i v s).oob =
      if i < T.NUM_PIXELS * BITS_PER_PIXEL then s.oob else s.oob ++ [(i, v)] := by
  unfold storePulse; split <;> rfl

/-- The fields of the state that the encoder never stores to. -/
theorem emits_frame (T : Target) (colors : Nat → Nat) (ms : List Nat) (l : Locals) :
    (emits T colors ms l).st.is_pixel_xmit_complete = l.st.is_pixel_xmit_complete ∧
    (emits T colors ms l).st.timer = l.st.timer ∧
    (emits T colors ms l).st.pcr_mosi = l.st.pcr_mosi ∧
    (emits T colors ms l).st.dsr_bcr = l.st.dsr_bcr ∧
    (emits T colors ms l).st.sar = l.st.sar ∧
    (emits T colors ms l).st.dcr = l.st.dcr ∧
    (emits T colors ms l).color = l.color ∧
    (emits T colors ms l).spi_idx = l.spi_idx + ms.length := by
  induction ms generalizing l with
  | nil => simp [emits]
  | cons m ms ih =>
    have h := ih (emit T colors m l)
    simp only [emits, List.foldl_cons] at h ⊢
    simp only [emit_st, emit_spi_idx, emit_color, storePulse_flag, storePulse_timer,
      storePulse_pcr, storePulse_bcr, storePulse_sar, storePulse_dcr] at h
    refine ⟨h.1, h.2.1, h.2.2.1, h.2.2.2.1, h.2.2.2.2.1, h.2.2.2.2.2.1, h.2.2.2.2.2.2.1, ?_⟩
    rw [h.2.2.2.2.2.2.2, List.length_cons]; omega

/-- The stores of a run of loop bodies, in program order. -/
theorem emits_trace (T : Target) (colors : Nat → Nat) (ms : List Nat) (l : Locals) :
    (emits T colors ms l).st.trace =
      l.st.trace ++ (List.range ms.length).map
        (fun i => Event.writeBuf (l.spi_idx + i) (emitVal (colors l.color) (ms.getD i 0))) := by
  induction ms generalizing l with
  | nil => simp [emits]
  | cons m ms ih =>
    have h := ih (emit T colors m l)
    simp only [emits, List.foldl_cons] at h ⊢
    rw [h, emit_st, storePulse_trace, emit_spi_idx, emit_color, List.length_cons,
      List.range_succ_eq_map, List.map_cons, List.map_map, List.append_assoc]
    simp only [List.singleton_append, Nat.add_zero, List.getD_cons_zero]
    congr 2
    apply List.map_congr_left
    intro i _
    simp only [Function.comp, List.getD_cons_succ]
    congr 1
    omega

/-- The buffer after a run of loop bodies that stays inside the array. -/
theorem emits_output (T : Target) (colors : Nat → Nat) (ms : List Nat) (l : Locals)
    (hb : l.spi_idx + ms.length ≤ T.NUM_PIXELS * BITS_PER_PIXEL) (j : Nat) :
    (emits T colors ms l).st.spi_output j =
      (if l.spi_idx ≤ j ∧ j < l.spi_idx + ms.length
        then emitVal (colors l.color) (ms.getD (j - l.spi_idx) 0)
        else l.st.spi_output j) ∧
    (emits T colors ms l).st.oob = l.st.oob := by
  induction ms generalizing l with
  | nil =>
    simp only [emits, List.foldl_nil, List.length_nil, Nat.add_zero, and_true]
    rw [if_neg (by omega)]
  | cons m ms ih =>
    rw [List.length_cons] at hb
    have h := ih (emit T colors m l) (by rw [emit_spi_idx]; omega)
    simp only [emits, List.foldl_cons] at h ⊢
    have hin : l.spi_idx < T.NUM_PIXELS * BITS_PER_PIXEL := by omega
    rw [emit_st, emit_spi_idx, emit_color, storePulse_oob, if_pos hin, storePulse_output] at h
    rw [h.1, h.2, List.length_cons]
    refine ⟨?_, rfl⟩
    by_cases h1 : j = l.spi_idx
    · subst h1
      rw [if_neg (by omega), if_pos ⟨rfl, hin⟩, if_pos (by omega)]
      simp
    · by_cases h2 : l.spi_idx + 1 ≤ j ∧ j < l.spi_idx + 1 + ms.length
      · rw [if_pos h2, if_pos (by omega)]
        have : j - l.spi_idx = (j - (l.spi_idx + 1)) + 1 := by omega
        rw [this, List.getD_cons_succ]
      · rw [if_neg h2, if_neg (fun h3 => h1 h3.1), if_neg (by omega)]

theorem pixelBody_frame (T : Target) (colors : Nat → Nat) (l : Locals) :
    (pixelBody T colors l).st.is_pixel_xmit_complete = l.st.is_pixel_xmit_complete ∧
    (pixelBody T colors l).st.timer = l.st.timer ∧
    (pixelBody T colors l).st.pcr_mosi = l.st.pcr_mosi ∧
    (pixelBody T colors l).st.dsr_bcr = l.st.dsr_bcr ∧
    (pixelBody T colors l).st.sar = l.st.sar ∧
    (pixelBody T colors l).st.dcr = l.st.dcr ∧
    (pixelBody T colors l).color = l.color + 1 ∧
    (pixelBody T colors l).spi_idx = l.spi_idx + 24 := by
  have h := emits_frame T colors pixelMasks l
  rw [pixelBody_eq]
  refine ⟨h.1, h.2.1, h.2.2.1, h.2.2.2.1, h.2.2.2.2.1, h.2.2.2.2.2.1, ?_, h.2.2.2.2.2.2.2⟩
  show (emits T colors pixelMasks l).color + 1 = l.color + 1
  rw [h.2.2.2.2.2.2.1]

theorem pixelBody_trace (T : Target) (colors : Nat → Nat) (l : Locals) :
    (pixelBody T colors l).st.trace = l.st.trace ++ pixelEvents (colors l.color) l.spi_idx := by
  rw [pixelBody_eq]
  show (emits T colors pixelMasks l).st.trace = _
  rw [emits_trace]
  congr 1
  apply List.map_congr_left
  intro k hk
  have hk24 : k < 24 := by simpa [pixelMasks] using hk
  rw [pixelMasks_getD k hk24, emitVal_two_pow]

theorem pixelBody_output (T : Target) (colors : Nat → Nat) (l : Locals)
    (hb : l.spi_idx + 24 ≤ T.NUM_PIXELS * BITS_PER_PIXEL) (j : Nat) :
    (pixelBody T colors l).st.spi_output j =
      (if l.spi_idx ≤ j ∧ j < l.spi_idx + 24
        then pulse ((colors l.color).testBit (srcBit (j - l.spi_idx)))
        else l.st.spi_output j) ∧
    (pixelBody T colors l).st.oob = l.st.oob := by
  have h := emits_output T colors pixelMasks l hb j
  rw [pixelBody_eq]
  refine ⟨?_, h.2⟩
  show (emits T colors pixelMasks l).st.spi_output j = _
  rw [h.1]
  have hlen : pixelMasks.length = 24 := rfl
  rw [hlen]
  by_cases hj : l.spi_idx ≤ j ∧ j < l.spi_idx + 24
  · rw [if_pos hj, if_pos hj, pixelMasks_getD _ (by omega), emitVal_two_pow]
  · rw [if_neg hj, if_neg hj]

theorem pixelLoop_done (T : Target) (colors : Nat → Nat) (n i : Nat) (l : Locals)
    (h : ¬ i < n) : pixelLoop T colors n i l = l := by
  rw [pixelLoop, if_neg h]

theorem pixelLoop_step (T : Target) (colors : Nat → Nat) (n i : Nat) (l : Locals)
    (h : i < n) :
    pixelLoop T colors n i l = pixelLoop T colors n (i + 1) (pixelBody T colors l) := by
  rw [pixelLoop, if_pos h]

theorem pixelLoop_frame (T : Target) (colors : Nat → Nat) (n d : Nat) :
    ∀ (i : Nat) (l : Locals), n = i + d →
    (pixelLoop T colors n i l).st.is_pixel_xmit_complete = l.st.is_pixel_xmit_complete ∧
    (pixelLoop T colors n i l).st.timer = l.st.timer ∧
    (pixelLoop T colors n i l).st.pcr_mosi = l.st.pcr_mosi ∧
    (pixelLoop T colors n i l).st.dsr_bcr = l.st.dsr_bcr ∧
    (pixelLoop T colors n i l).st.sar = l.st.sar ∧
    (pixelLoop T colors n i l).st.dcr = l.st.dcr ∧
    (pixelLoop T colors n i l).color = l.color + d ∧
    (pixelLoop T colors n i l).spi_idx = l.spi_idx + 24 * d := by
  induction d with
  | zero =>
    intro i l hn
    rw [pixelLoop_done T colors n i l (by omega)]
    simp
  | succ d ih =>
    intro i l hn
    rw [pixelLoop_step T colors n i l (by omega)]
    have h := ih (i + 1) (pixelBody T colors l) (by omega)
    have hb := pixelBody_frame T colors l
    refine ⟨h.1.trans hb.1, h.2.1.trans hb.2.1, h.2.2.1.trans hb.2.2.1,
      h.2.2.2.1.trans hb.2.2.2.1, h.2.2.2.2.1.trans hb.2.2.2.2.1,
      h.2.2.2.2.2.1.trans hb.2.2.2.2.2.1, ?_, ?_⟩
    · rw [h.2.2.2.2.2.2.1, hb.2.2.2.2.2.2.1]; omega
    · rw [h.2.2.2.2.2.2.2, hb.2.2.2.2.2.2.2]; omega

/-- The stores of the pixel loop, in program order: one for each of the
`24 * d` pulse bytes of the `d` pixels still to encode. -/
theorem pixelLoop_trace (T : Target) (colors : Nat → Nat) (n d : Nat) :
    ∀ (i : Nat) (l : Locals), n = i + d →
    (pixelLoop T colors n i l).st.trace =
      l.st.trace ++ (List.range (24 * d)).map (fun j =>
        Event.writeBuf (l.spi_idx + j)
          (pulse ((colors (l.color + j / 24)).testBit (srcBit (j % 24))))) := by
  induction d with
  | zero =>
    intro i l hn
    rw [pixelLoop_done T colors n i l (by omega)]
    simp
  | succ d ih =>
    intro i l hn
    rw [pixelLoop_step T colors n i l (by omega), ih (i + 1) (pixelBody T colors l) (by omega),
      pixelBody_trace, (pixelBody_frame T colors l).2.2.2.2.2.2.1,
      (pixelBody_frame T colors l).2.2.2.2.2.2.2, List.append_assoc]
    congr 1
    have h24 : 24 * (d + 1) = 24 + 24 * d := by omega
    rw [h24, List.range_add, List.map_append, List.map_map]
    have e1 : pixelEvents (colors l.color) l.spi_idx =
        List.map (fun j => Event.writeBuf (l.spi_idx + j)
          (pulse ((colors (l.color + j / 24)).testBit (srcBit (j % 24))))) (List.range 24) := by
      unfold pixelEvents
      apply List.map_congr_left
      intro k hk
      have hk24 : k < 24 := by simpa using hk
      rw [Nat.div_eq_of_lt hk24, Nat.mod_eq_of_lt hk24, Nat.add_zero]
    rw [e1]
    congr 1
    apply List.map_congr_left
    intro k _
    simp only [Function.comp]
    have h1 : (24 + k) / 24 = 1 + k / 24 := by omega
    have h2 : (24 + k) % 24 = k % 24 := by omega
    rw [h1, h2, Nat.add_assoc, Nat.add_assoc]

/-- The buffer after the pixel loop, when the loop stays inside the array. -/
theorem pixelLoop_output (T : Target) (colors : Nat → Nat) (n d : Nat) :
    ∀ (i : Nat) (l : Locals), n = i + d →
    l.spi_idx + 24 * d ≤ T.NUM_PIXELS * BITS_PER_PIXEL → ∀ j : Nat,
    (pixelLoop T colors n i l).st.spi_output j =
      (if l.spi_idx ≤ j ∧ j < l.spi_idx + 24 * d
        then pulse ((colors (l.color + (j - l.spi_idx) / 24)).testBit
          (srcBit ((j - l.spi_idx) % 24)))
        else l.st.spi_output j) ∧
    (pixelLoop T colors n i l).st.oob = l.st.oob := by
  induction d with
  | zero =>
    intro i l hn _ j
    rw [pixelLoop_done T colors n i l (by omega), if_neg (by omega)]
    exact ⟨rfl, rfl⟩
  | succ d ih =>
    intro i l hn hb j
    have hf := pixelBody_frame T colors l
    have hbody := pixelBody_output T colors l (by omega) j
    have h := ih (i + 1) (pixelBody T colors l) (by omega)
      (by rw [hf.2.2.2.2.2.2.2]; omega) j
    rw [pixelLoop_step T colors n i l (by omega), h.1, h.2, hbody.1, hbody.2,
      hf.2.2.2.2.2.2.1, hf.2.2.2.2.2.2.2]
    refine ⟨?_, rfl⟩
    by_cases h1 : l.spi_idx + 24 ≤ j ∧ j < l.spi_idx + 24 + 24 * d
    · rw [if_pos h1, if_pos (by omega)]
      have e1 : (j - l.spi_idx) / 24 = 1 + (j - (l.spi_idx + 24)) / 24 := by omega
      have e2 : (j - l.spi_idx) % 24 = (j - (l.spi_idx + 24)) % 24 := by omega
      rw [e1, e2, Nat.add_assoc]
    · rw [if_neg h1]
      by_cases h2 : l.spi_idx ≤ j ∧ j < l.spi_idx + 24
      · rw [if_pos h2, if_pos (by omega)]
        have e1 : (j - l.spi_idx) / 24 = 0 := by omega
        have e2 : (j - l.spi_idx) % 24 = j - l.spi_idx := by omega
        rw [e1, e2, Nat.add_zero]
      · rw [if_neg h2, if_neg (by omega)]

/-! ## The busy-wait loops -/

/-- The drain loop stores to nothing on its own: up to where it stands it has
only read the flag as false and been interrupted by the completion handler;
it is left on the first read of the flag as true. -/
theorem waitXmit_spec (env : Env) (fuel : Nat) :
    ∀ (k : Nat) (s : State), ∃ (s' : State) (drain : List Event),
      (∀ e ∈ drain, e = Event.readFlag false ∨ e = Event.irq) ∧
      s'.spi_output = s.spi_output ∧ s'.oob = s.oob ∧ s'.timer = s.timer ∧
      s'.sar = s.sar ∧ s'.dcr = s.dcr ∧
      ((waitXmit env fuel k s = Poll.pending s' ∧ s'.trace = s.trace ++ drain) ∨
       (waitXmit env fuel k s = Poll.passed s' ∧
        s'.trace = s.trace ++ drain ++ [Event.readFlag true] ∧
        s'.is_pixel_xmit_complete = true)) := by
  induction fuel with
  | zero =>
    intro k s
    exact ⟨s, [], by simp, rfl, rfl, rfl, rfl, rfl, Or.inl ⟨rfl, by simp⟩⟩
  | succ fuel ih =>
    intro k s
    by_cases hi : env.irq k = true
    · -- the handler runs and sets the flag: the loop is left
      refine ⟨(DMA1_IRQHandler s).log (Event.readFlag true), [Event.irq], by simp,
        rfl, rfl, rfl, rfl, rfl, Or.inr ⟨?_, ?_, rfl⟩⟩
      · simp [waitXmit, hi, DMA1_IRQHandler, State.log]
      · simp [DMA1_IRQHandler, State.log]
    · by_cases hf : s.is_pixel_xmit_complete = true
      · refine ⟨s.log (Event.readFlag true), [], by simp, rfl, rfl, rfl, rfl, rfl,
          Or.inr ⟨?_, ?_, hf⟩⟩
        · simp [waitXmit, hi, hf]
        · simp [State.log]
      · have hf' : s.is_pixel_xmit_complete = false := by simpa using hf
        obtain ⟨s', drain, hd, h1, h2, h3, h4, h5, h6⟩ :=
          ih (k + 1) (s.log (Event.readFlag false))
        have hw : waitXmit env (fuel + 1) k s =
            waitXmit env fuel (k + 1) (s.log (Event.readFlag false)) := by
          simp [waitXmit, hi, hf']
        refine ⟨s', Event.readFlag false :: drain, ?_, h1, h2, h3, h4, h5, ?_⟩
        · intro e he
          rcases List.mem_cons.1 he with h | h
          · exact Or.inl h
          · exact hd e h
        · rw [hw]
          rcases h6 with ⟨ha, hb⟩ | ⟨ha, hb, hc⟩
          · exact Or.inl ⟨ha, by rw [hb]; simp [State.log]⟩
          · exact Or.inr ⟨ha, by rw [hb]; simp [State.log], hc⟩

/-- The drain loop is left within the budget when the flag is already true at
entry or the completion interrupt is served within the budget. -/
theorem waitXmit_passes (env : Env) (fuel : Nat) :
    ∀ (k : Nat) (s : State), 0 < fuel →
      (s.is_pixel_xmit_complete = true ∨ ∃ j, j < fuel ∧ env.irq (k + j) = true) →
      ∃ s', waitXmit env fuel k s = Poll.passed s' := by
  induction fuel with
  | zero => intro k s h; omega
  | succ fuel ih =>
    intro k s _ h
    by_cases hi : env.irq k = true
    · exact ⟨_, by simp [waitXmit, hi, DMA1_IRQHandler, State.log]; rfl⟩
    · by_cases hf : s.is_pixel_xmit_complete = true
      · exact ⟨_, by simp [waitXmit, hi, hf]; rfl⟩
      · have hf' : s.is_pixel_xmit_complete = false := by simpa using hf
        have hw : waitXmit env (fuel + 1) k s =
            waitXmit env fuel (k + 1) (s.log (Event.readFlag false)) := by
          simp [waitXmit, hi, hf']
        rw [hw]
        rcases h with h | ⟨j, hj, hjt⟩
        · exact absurd h hf
        · cases j with
          | zero => exact absurd hjt hi
          | succ j =>
            have hfuel : 0 < fuel := by omega
            exact ih (k + 1) _ hfuel (Or.inr ⟨j, by omega, by
              have : k + 1 + j = k + (j + 1) := by omega
              rw [this]; exact hjt⟩)

/-- With the flag false and the completion handler never run, the drain loop
is never left: it only reads the flag. -/
theorem waitXmit_stuck (env : Env) (hirq : ∀ k, env.irq k = false) (fuel : Nat) :
    ∀ (k : Nat) (s : State), s.is_pixel_xmit_complete = false →
      waitXmit env fuel k s =
        Poll.pending { s with trace := s.trace ++ List.replicate fuel (Event.readFlag false) } := by
  induction fuel with
  | zero => intro k s _; simp [waitXmit]
  | succ fuel ih =>
    intro k s hf
    have hw : waitXmit env (fuel + 1) k s =
        waitXmit env fuel (k + 1) (s.log (Event.readFlag false)) := by
      simp [waitXmit, hirq k, hf]
    rw [hw, ih (k + 1) _ (by simpa [State.log] using hf)]
    simp [State.log, List.replicate_succ]

theorem waitReset_step (env : Env) (fuel k : Nat) (s : State) :
    waitReset env (fuel + 1) k s =
      if s.timer + env.elapsed k < PIXL_RESET then
        waitReset env fuel (k + 1)
          (({ s with timer := s.timer + env.elapsed k }).log
            (Event.readTimer (s.timer + env.elapsed k)))
      else
        Poll.passed (({ s with timer := s.timer + env.elapsed k }).log
          (Event.readTimer (s.timer + env.elapsed k))) := by
  simp [waitReset, get_timer_us]

/-- The reset wait only reads the timer: every reading but the last is below
`PIXL_RESET`, and the loop is left on the first reading that is not. -/
theorem waitReset_spec (env : Env) (fuel : Nat) :
    ∀ (k : Nat) (s : State), s.timer + env.elapsed k = timerAt env k →
    ∃ (s' : State) (reads : List Event),
      (∀ e ∈ reads, ∃ v, e = Event.readTimer v ∧ v < PIXL_RESET) ∧
      s'.spi_output = s.spi_output ∧ s'.oob = s.oob ∧
      s'.is_pixel_xmit_complete = s.is_pixel_xmit_complete ∧
      s'.pcr_mosi = s.pcr_mosi ∧ s'.dsr_bcr = s.dsr_bcr ∧
      s'.sar = s.sar ∧ s'.dcr = s.dcr ∧
      ((waitReset env fuel k s = Poll.pending s' ∧ s'.trace = s.trace ++ reads ∧
        ∀ j, k ≤ j → j < k + fuel → timerAt env j < PIXL_RESET) ∨
       (∃ m, waitReset env fuel k s = Poll.passed s' ∧
        s'.trace = s.trace ++ reads ++ [Event.readTimer (timerAt env m)] ∧
        PIXL_RESET ≤ timerAt env m ∧ s'.timer = timerAt env m)) := by
  induction fuel with
  | zero =>
    intro k s _
    exact ⟨s, [], by simp, rfl, rfl, rfl, rfl, rfl, rfl, rfl,
      Or.inl ⟨rfl, by simp, fun j h1 h2 => by omega⟩⟩
  | succ fuel ih =>
    intro k s hinv
    rw [waitReset_step, hinv]
    by_cases ht : timerAt env k < PIXL_RESET
    · rw [if_pos ht]
      obtain ⟨s', reads, hr, h1, h2, h3, h4, h5, h6, h7, h8⟩ :=
        ih (k + 1) (({ s with timer := timerAt env k }).log (Event.readTimer (timerAt env k)))
          (by simp [State.log, timerAt])
      refine ⟨s', Event.readTimer (timerAt env k) :: reads, ?_, h1, h2, h3, h4, h5, h6, h7, ?_⟩
      · intro e he
        rcases List.mem_cons.1 he with h | h
        · exact ⟨_, h, ht⟩
        · exact hr e h
      · rcases h8 with ⟨ha, hb, hc⟩ | ⟨m, ha, hb, hc, hd⟩
        · refine Or.inl ⟨ha, by rw [hb]; simp [State.log], ?_⟩
          intro j hj1 hj2
          by_cases hjk : j = k
          · rw [hjk]; exact ht
          · exact hc j (by omega) (by omega)
        · exact Or.inr ⟨m, ha, by rw [hb]; simp [State.log], hc, hd⟩
    · rw [if_neg ht]
      exact ⟨({ s with timer := timerAt env k }).log (Event.readTimer (timerAt env k)), [],
        by simp, rfl, rfl, rfl, rfl, rfl, rfl, rfl,
        Or.inr ⟨k, rfl, by simp [State.log], by omega, rfl⟩⟩

/-! ## The encoder as a whole -/

theorem encode_frame (T : Target) (colors : Nat → Nat) (n : Nat) (s : State) :
    (encode T colors n s).st.is_pixel_xmit_complete = s.is_pixel_xmit_complete ∧
    (encode T colors n s).st.timer = s.timer ∧
    (encode T colors n s).st.pcr_mosi = s.pcr_mosi ∧
    (encode T colors n s).st.dsr_bcr = s.dsr_bcr ∧
    (encode T colors n s).st.sar = s.sar ∧
    (encode T colors n s).st.dcr = s.dcr ∧
    (encode T colors n s).color = n ∧
    (encode T colors n s).spi_idx = 24 * n := by
  have h := pixelLoop_frame T colors n n 0 { st := s, spi_idx := 0, color := 0 } (by omega)
  simpa [encode] using h

/-- The encoder makes exactly `24 * n` stores, to the indices `0, 1, ...` in
this order, each of the pulse byte of its bit. -/
theorem encode_trace (T : Target) (colors : Nat → Nat) (n : Nat) (s : State) :
    (encode T colors n s).st.trace =
      s.trace ++ (List.range (24 * n)).map (fun j => Event.writeBuf j (encByte colors j)) := by
  have h := pixelLoop_trace T colors n n 0 { st := s, spi_idx := 0, color := 0 } (by omega)
  simpa [encode, encByte] using h

/-- The buffer after encoding `n` pixels that fit the array. -/
theorem encode_output (T : Target) (colors : Nat → Nat) (n : Nat) (s : State)
    (hcap : n ≤ T.NUM_PIXELS) (j : Nat) :
    (encode T colors n s).st.spi_output j =
      (if j < 24 * n then encByte colors j else s.spi_output j) ∧
    (encode T colors n s).st.oob = s.oob := by
  have h := pixelLoop_output T colors n n 0 { st := s, spi_idx := 0, color := 0 } (by omega)
    (by simp only [BITS_PER_PIXEL]; omega) j
  simpa [encode, encByte] using h

theorem startReset_trace (s : State) :
    (startReset s).trace =
      s.trace ++ [Event.resetTimer, Event.writePCR (s.pcr_mosi &&& not32 PORT_PCR_MUX_MASK)] := by
  simp [startReset, reset_timer, State.log]

theorem muxField_clear (x : Nat) : muxField (x &&& not32 PORT_PCR_MUX_MASK) = 0 := by
  have h : not32 PORT_PCR_MUX_MASK &&& PORT_PCR_MUX_MASK = 0 := by decide
  unfold muxField
  rw [Nat.and_assoc, h, Nat.and_zero, Nat.zero_shiftRight]

theorem muxField_set (x : Nat) :
    muxField ((x &&& not32 PORT_PCR_MUX_MASK) ||| PORT_PCR_MUX SPI_MUX_ALT) = SPI_MUX_ALT := by
  have h : not32 PORT_PCR_MUX_MASK &&& PORT_PCR_MUX_MASK = 0 := by decide
  have h2 : PORT_PCR_MUX SPI_MUX_ALT &&& PORT_PCR_MUX_MASK = 0x200 := by decide
  unfold muxField
  rw [Nat.and_distrib_right, Nat.and_assoc, h, Nat.and_zero, Nat.zero_or, h2]
  decide

/-! ## A call of `spi_pixl_update`, phase by phase -/

theorem update_unfold (T : Target) (env : Env) (fuel : Nat) (colors : Nat → Nat) (n : Nat)
    (s : State) (hn : 0 < n) :
    spi_pixl_update T env fuel (some colors) n s =
      match waitXmit env fuel 0 s with
      | Poll.pending s1 => Outcome.spinning s1
      | Poll.passed s1 =>
        match waitReset env fuel 0 (encode T colors n (startReset s1)).st with
        | Poll.pending s5 => Outcome.spinning s5
        | Poll.passed s5 => Outcome.returned 0 (arm T s5) := by
  unfold spi_pixl_update
  simp only [Nat.le_zero_eq, Nat.ne_of_gt hn, if_false]

/-- A call with valid arguments stands in one of three places: inside the
drain loop, inside the reset wait, or returned with the transfer armed. -/
theorem update_phases (T : Target) (env : Env) (fuel : Nat) (colors : Nat → Nat) (n : Nat)
    (s : State) (hn : 0 < n) :
    ∃ drain : List Event, (∀ e ∈ drain, e = Event.readFlag false ∨ e = Event.irq) ∧
    ((∃ s', spi_pixl_update T env fuel (some colors) n s = Outcome.spinning s' ∧
        waitXmit env fuel 0 s = Poll.pending s' ∧
        s'.trace = s.trace ++ drain ∧ s'.spi_output = s.spi_output ∧ s'.oob = s.oob) ∨
     (∃ (s1 E : State) (reads : List Event),
        waitXmit env fuel 0 s = Poll.passed s1 ∧
        E = (encode T colors n (startReset s1)).st ∧
        s1.trace = s.trace ++ drain ++ [Event.readFlag true] ∧
        s1.spi_output = s.spi_output ∧ s1.oob = s.oob ∧ s1.sar = s.sar ∧ s1.dcr = s.dcr ∧
        (∀ e ∈ reads, ∃ v, e = Event.readTimer v ∧ v < PIXL_RESET) ∧
        ((∃ s', spi_pixl_update T env fuel (some colors) n s = Outcome.spinning s' ∧
            s'.trace = E.trace ++ reads ∧ s'.spi_output = E.spi_output ∧ s'.oob = E.oob ∧
            ∀ j, j < fuel → timerAt env j < PIXL_RESET) ∨
         (∃ (s5 : State) (m : Nat),
            spi_pixl_update T env fuel (some colors) n s = Outcome.returned 0 (arm T s5) ∧
            s5.trace = E.trace ++ reads ++ [Event.readTimer (timerAt env m)] ∧
            PIXL_RESET ≤ timerAt env m ∧
            s5.spi_output = E.spi_output ∧ s5.oob = E.oob ∧
            s5.is_pixel_xmit_complete = E.is_pixel_xmit_complete ∧
            s5.pcr_mosi = E.pcr_mosi ∧ s5.dsr_bcr = E.dsr_bcr ∧
            s5.sar = E.sar ∧ s5.dcr = E.dcr)))) := by
  obtain ⟨s1, drain, hdr, a1, a2, a3, a4, a5, a6⟩ := waitXmit_spec env fuel 0 s
  refine ⟨drain, hdr, ?_⟩
  rw [update_unfold T env fuel colors n s hn]
  rcases a6 with ⟨hw, htr⟩ | ⟨hw, htr, _⟩
  · left
    exact ⟨s1, by rw [hw], hw, htr, a1, a2⟩
  · right
    have hE := encode_frame T colors n (startReset s1)
    have hinv : (encode T colors n (startReset s1)).st.timer + env.elapsed 0 = timerAt env 0 := by
      rw [hE.2.1]
      simp [startReset, reset_timer, State.log, timerAt]
    obtain ⟨s5, reads, hrd, b1, b2, b3, b4, b5, b6, b7, b8⟩ :=
      waitReset_spec env fuel 0 (encode T colors n (startReset s1)).st hinv
    refine ⟨s1, (encode T colors n (startReset s1)).st, reads, hw, rfl, htr, a1, a2, a4, a5,
      hrd, ?_⟩
    rw [hw]
    rcases b8 with ⟨hr, htr5, hlt⟩ | ⟨m, hr, htr5, hge, _⟩
    · left
      exact ⟨s5, by simp only [hr], htr5, b1, b2,
        fun j hj => hlt j (Nat.zero_le j) (by omega)⟩
    · right
      exact ⟨s5, m, by simp only [hr], htr5, hge, b1, b2, b3, b4, b5, b6, b7⟩

/-- A call with valid arguments returns success once the flag is seen true
and the timer is seen to have reached the reset interval. -/
theorem update_returns (T : Target) (env : Env) (fuel : Nat) (colors : Nat → Nat) (n : Nat)
    (s : State) (hn : 0 < n)
    (hd : s.is_pixel_xmit_complete = true ∨ ∃ j, j < fuel ∧ env.irq j = true)
    (ht : ∃ k, k < fuel ∧ PIXL_RESET ≤ timerAt env k) :
    ∃ (drain reads : List Event) (s1 E s5 : State) (m : Nat),
      (∀ e ∈ drain, e = Event.readFlag false ∨ e = Event.irq) ∧
      (∀ e ∈ reads, ∃ v, e = Event.readTimer v ∧ v < PIXL_RESET) ∧
      waitXmit env fuel 0 s = Poll.passed s1 ∧
      E = (encode T colors n (startReset s1)).st ∧
      s1.trace = s.trace ++ drain ++ [Event.readFlag true] ∧
      s1.spi_output = s.spi_output ∧ s1.oob = s.oob ∧ s1.sar = s.sar ∧ s1.dcr = s.dcr ∧
      spi_pixl_update T env fuel (some colors) n s = Outcome.returned 0 (arm T s5) ∧
      s5.trace = E.trace ++ reads ++ [Event.readTimer (timerAt env m)] ∧
      PIXL_RESET ≤ timerAt env m ∧
      s5.spi_output = E.spi_output ∧ s5.oob = E.oob ∧
      s5.is_pixel_xmit_complete = E.is_pixel_xmit_complete ∧
      s5.pcr_mosi = E.pcr_mosi ∧ s5.dsr_bcr = E.dsr_bcr ∧
      s5.sar = E.sar ∧ s5.dcr = E.dcr := by
  obtain ⟨k, hk, hkt⟩ := ht
  have hfuel : 0 < fuel := by omega
  obtain ⟨s1', hpass⟩ := waitXmit_passes env fuel 0 s hfuel (by simpa using hd)
  obtain ⟨drain, hdr, h⟩ := update_phases T env fuel colors n s hn
  rcases h with ⟨s', _, hw, _⟩ | ⟨s1, E, reads, hw, hE, c1, c2, c3, c4, c5, hrd, h⟩
  · rw [hpass] at hw; cases hw
  · rcases h with ⟨s', _, _, _, _, hlt⟩ | ⟨s5, m, hr, d1, d2, d3, d4, d5, d6, d7, d8, d9⟩
    · exact absurd hkt (by have := hlt k hk; omega)
    · exact ⟨drain, reads, s1, E, s5, m, hdr, hrd, hw, hE, c1, c2, c3, c4, c5, hr, d1, d2, d3,
        d4, d5, d6, d7, d8, d9⟩

/-- The buffer after a successful call that fits the array: the first
`24 * n` bytes are the pulse bytes, the others are as before. -/
theorem update_buffer (T : Target) (env : Env) (fuel : Nat) (colors : Nat → Nat) (n : Nat)
    (s : State) (hn : 0 < n) (hcap : n ≤ T.NUM_PIXELS)
    (hd : s.is_pixel_xmit_complete = true ∨ ∃ j, j < fuel ∧ env.irq j = true)
    (ht : ∃ k, k < fuel ∧ PIXL_RESET ≤ timerAt env k) :
    ∃ s', spi_pixl_update T env fuel (some colors) n s = Outcome.returned 0 s' ∧
      (∀ j, s'.spi_output j = if j < 24 * n then encByte colors j else s.spi_output j) ∧
      s'.oob = s.oob := by
  obtain ⟨drain, reads, s1, E, s5, m, _, _, _, hE, _, c2, c3, _, _, hr, _, _, d3, d4, _⟩ :=
    update_returns T env fuel colors n s hn hd ht
  refine ⟨arm T s5, hr, ?_, ?_⟩
  · intro j
    have h := (encode_output T colors n (startReset s1) hcap j).1
    show s5.spi_output j = _
    rw [d3, hE, h]
    show _ = if j < 24 * n then encByte colors j else s.spi_output j
    rw [← c2]
    rfl
  · have h := (encode_output T colors n (startReset s1) hcap 0).2
    show s5.oob = _
    rw [d4, hE, h, ← c3]
    rfl

/-! ## The events of a call -/

theorem arm_trace (T : Target) (s : State) : (arm T s).trace = s.trace ++ armEvents T s := by
  simp [arm, armEvents, State.log]

theorem newEvents_eq (s : State) (o : Outcome) (evs : List Event)
    (h : o.state.trace = s.trace ++ evs) : newEvents s o = evs := by
  unfold newEvents
  rw [h, List.drop_left]

/-- The events of a call with valid arguments, for each place it can stand in;
`x` is what the pin-control register holds when the drain loop is left. -/
theorem update_trace (T : Target) (env : Env) (fuel : Nat) (colors : Nat → Nat) (n : Nat)
    (s : State) (hn : 0 < n) :
    ∃ drain : List Event, (∀ e ∈ drain, e = Event.readFlag false ∨ e = Event.irq) ∧
    ((∃ s', spi_pixl_update T env fuel (some colors) n s = Outcome.spinning s' ∧
        newEvents s (spi_pixl_update T env fuel (some colors) n s) = drain) ∨
     (∃ (x : Nat) (reads : List Event),
        (∀ e ∈ reads, ∃ v, e = Event.readTimer v ∧ v < PIXL_RESET) ∧
        ((∃ s', spi_pixl_update T env fuel (some colors) n s = Outcome.spinning s' ∧
            newEvents s (spi_pixl_update T env fuel (some colors) n s) =
              drain ++ [Event.readFlag true, Event.resetTimer,
                  Event.writePCR (x &&& not32 PORT_PCR_MUX_MASK)] ++
                bufEvents colors n ++ reads) ∨
         (∃ (s5 : State) (m : Nat),
            spi_pixl_update T env fuel (some colors) n s = Outcome.returned 0 (arm T s5) ∧
            PIXL_RESET ≤ timerAt env m ∧ s5.pcr_mosi = x &&& not32 PORT_PCR_MUX_MASK ∧
            newEvents s (spi_pixl_update T env fuel (some colors) n s) =
              drain ++ [Event.readFlag true, Event.resetTimer,
                  Event.writePCR (x &&& not32 PORT_PCR_MUX_MASK)] ++
                bufEvents colors n ++ reads ++ [Event.readTimer (timerAt env m)] ++
                armEvents T s5)))) := by
  obtain ⟨drain, hdr, h⟩ := update_phases T env fuel colors n s hn
  refine ⟨drain, hdr, ?_⟩
  rcases h with ⟨s', hr, _, htr, _⟩ | ⟨s1, E, reads, _, hE, c1, _, _, _, _, hrd, h⟩
  · left
    exact ⟨s', hr, newEvents_eq s _ drain (by rw [hr]; exact htr)⟩
  · right
    have hEt : E.trace = s.trace ++ (drain ++
        [Event.readFlag true, Event.resetTimer,
          Event.writePCR (s1.pcr_mosi &&& not32 PORT_PCR_MUX_MASK)] ++ bufEvents colors n) := by
      rw [hE, encode_trace, startReset_trace, c1]
      simp [bufEvents]
    have hEp : E.pcr_mosi = s1.pcr_mosi &&& not32 PORT_PCR_MUX_MASK := by
      rw [hE, (encode_frame T colors n (startReset s1)).2.2.1]
      rfl
    refine ⟨s1.pcr_mosi, reads, hrd, ?_⟩
    rcases h with ⟨s', hr, htr, _⟩ | ⟨s5, m, hr, htr, hge, _, _, _, d6, _⟩
    · left
      refine ⟨s', hr, newEvents_eq s _ _ ?_⟩
      rw [hr]
      show s'.trace = _
      rw [htr, hEt]
      simp
    · right
      refine ⟨s5, m, hr, hge, d6.trans hEp, newEvents_eq s _ _ ?_⟩
      rw [hr]
      show (arm T s5).trace = _
      rw [arm_trace, htr, hEt]
      simp

/-! ## The pulse encoding -/

theorem encByte_pixel (colors : Nat → Nat) (p k : Nat) (hk : k < 24) :
    encByte colors (24 * p + k) = pulse ((colors p).testBit (srcBit k)) := by
  unfold encByte
  have h1 : (24 * p + k) / 24 = p := by omega
  have h2 : (24 * p + k) % 24 = k := by omega
  rw [h1, h2]

/-- C1 (as amended): after a successful call for `count` pixels that fit the
buffer, the 24 pulse bytes of pixel `p` read the colour word as packed
Red(23-16)-Green(15-8)-Blue(7-0) and carry green, then red, then blue, each
most-significant bit first: byte `k` is `0xFE` when the source bit `srcBit k`
(`15 - k` for `k < 8`, `31 - k` for `8 ≤ k < 16`, `23 - k` for `16 ≤ k`) of
`colors[p]` is set and `0x80` when it is clear. -/
theorem pixel_bytes_follow_rgb_packing (T : Target) (env : Env) (fuel : Nat)
    (colors : Nat → Nat) (count : Nat) (s : State) (p k : Nat)
    (hcount : 1 ≤ count) (hcap : count ≤ T.NUM_PIXELS) (hp : p < count) (hk : k < 24)
    (hd : s.is_pixel_xmit_complete = true ∨ ∃ j, j < fuel ∧ env.irq j = true)
    (ht : ∃ i, i < fuel ∧ PIXL_RESET ≤ timerAt env i) :
    ∃ s', spi_pixl_update T env fuel (some colors) count s = Outcome.returned 0 s' ∧
      s'.spi_output (24 * p + k) =
        (if (colors p).testBit
            (if k < 8 then 15 - k else if k < 16 then 31 - k else 23 - k) = true
          then 0xFE else 0x80) := by
  obtain ⟨s', hr, hbuf, _⟩ := update_buffer T env fuel colors count s hcount hcap hd ht
  refine ⟨s', hr, ?_⟩
  rw [hbuf, if_pos (by omega), encByte_pixel colors p k hk]
  rfl

/-- C1, a run of the amended statement: one pixel `0x00FF00` on the
eight-pixel board, byte 3 of pixel 0. -/
theorem pixel_bytes_follow_rgb_packing_witness :
    ∃ s', spi_pixl_update board8 fastClock 1 (some (fun _ => 0x00FF00)) 1 idleState =
        Outcome.returned 0 s' ∧
      s'.spi_output (24 * 0 + 3) =
        (if (0x00FF00 : Nat).testBit
            (if 3 < 8 then 15 - 3 else if 3 < 16 then 31 - 3 else 23 - 3) = true
          then 0xFE else 0x80) :=
  pixel_bytes_follow_rgb_packing board8 fastClock 1 (fun _ => 0x00FF00) 1 idleState 0 3
    (by decide) (by decide) (by decide) (by decide) (Or.inl rfl) ⟨0, by decide, by decide⟩

/-- C1 as stated fails: for the single pixel `0x00FF00` the call puts `0xFE`
in bytes 0-7 and `0x80` in bytes 8-23, whereas the packing G(23-16)-R(15-8)-B(7-0)
with byte `k` carrying bit `23 - k` asks for `0xFE` in bytes 8-15. -/
theorem grb_packing_fails_on_00FF00 :
    ∃ s', spi_pixl_update board8 fastClock 1 (some (fun _ => 0x00FF00)) 1 idleState =
        Outcome.returned 0 s' ∧
      (∀ k, k < 8 → s'.spi_output k = 0xFE) ∧
      (∀ k, 8 ≤ k → k < 24 → s'.spi_output k = 0x80) ∧
      ¬ (∀ k, k < 24 → s'.spi_output (24 * 0 + k) =
          (if (0x00FF00 : Nat).testBit (23 - k) = true then 0xFE else 0x80)) := by
  obtain ⟨s', hr, hbuf, _⟩ := update_buffer board8 fastClock 1 (fun _ => 0x00FF00) 1 idleState
    (by decide) (by decide) (Or.inl rfl) ⟨0, by decide, by decide⟩
  have henc : ∀ k, k < 24 → encByte (fun _ => 0x00FF00) k = if k < 8 then 0xFE else 0x80 := by
    decide
  refine ⟨s', hr, ?_, ?_, ?_⟩
  · intro k hk
    rw [hbuf, if_pos (by omega), henc k (by omega), if_pos hk]
  · intro k hk1 hk2
    rw [hbuf, if_pos (by omega), henc k hk2, if_neg (by omega)]
  · intro h
    have h0 := h 0 (by decide)
    rw [hbuf, if_pos (by decide), henc 0 (by decide)] at h0
    revert h0
    decide

/-- C2: after a successful call for `count` pixels that fit the buffer, the
encoder has read `colors[p]` as RGB-packed (red bits 23-16, green bits 15-8,
blue bits 7-0, the bits of `RED_MASK`, `GRN_MASK`, `BLU_MASK`) and emitted
green, then red, then blue, each most-significant bit first: for `j < 8` the
bytes `24p+j`, `24p+8+j`, `24p+16+j` are the pulses of bits `15-j`, `23-j`,
`7-j`, where the pulse of a set bit is `0xFE` and of a clear bit `0x80`. -/
theorem channel_groups_green_red_blue (T : Target) (env : Env) (fuel : Nat)
    (colors : Nat → Nat) (count : Nat) (s : State) (p j : Nat)
    (hcount : 1 ≤ count) (hcap : count ≤ T.NUM_PIXELS) (hp : p < count) (hj : j < 8)
    (hd : s.is_pixel_xmit_complete = true ∨ ∃ i, i < fuel ∧ env.irq i = true)
    (ht : ∃ i, i < fuel ∧ PIXL_RESET ≤ timerAt env i) :
    ∃ s', spi_pixl_update T env fuel (some colors) count s = Outcome.returned 0 s' ∧
      s'.spi_output (24 * p + j) = pulse ((colors p).testBit (15 - j)) ∧
      s'.spi_output (24 * p + 8 + j) = pulse ((colors p).testBit (23 - j)) ∧
      s'.spi_output (24 * p + 16 + j) = pulse ((colors p).testBit (7 - j)) ∧
      GRN_MASK.testBit (15 - j) = true ∧ RED_MASK.testBit (23 - j) = true ∧
      BLU_MASK.testBit (7 - j) = true ∧
      pulse true = 0xFE ∧ pulse false = 0x80 := by
  obtain ⟨s', hr, hbuf, _⟩ := update_buffer T env fuel colors count s hcount hcap hd ht
  refine ⟨s', hr, ?_, ?_, ?_, ?_, ?_, ?_, rfl, rfl⟩
  · rw [hbuf, if_pos (by omega), encByte_pixel colors p j (by omega)]
    simp only [srcBit, if_pos hj]
  · rw [Nat.add_assoc, hbuf, if_pos (by omega), encByte_pixel colors p (8 + j) (by omega)]
    have h1 : ¬ 8 + j < 8 := by omega
    have h2 : 8 + j < 16 := by omega
    have h3 : 31 - (8 + j) = 23 - j := by omega
    simp only [srcBit, if_neg h1, if_pos h2, h3]
  · rw [Nat.add_assoc, hbuf, if_pos (by omega), encByte_pixel colors p (16 + j) (by omega)]
    have h1 : ¬ 16 + j < 8 := by omega
    have h2 : ¬ 16 + j < 16 := by omega
    have h3 : 23 - (16 + j) = 7 - j := by omega
    simp only [srcBit, if_neg h1, if_neg h2, h3]
  · interval_cases j <;> decide
  · interval_cases j <;> decide
  · interval_cases j <;> decide

/-- C2, a run: pixel 1 of two pixels, bit position 2 of each channel. -/
theorem channel_groups_green_red_blue_witness :
    ∃ s', spi_pixl_update board8 fastClock 1 (some (fun i => if i = 1 then 0x204080 else 0)) 2
        idleState = Outcome.returned 0 s' ∧
      s'.spi_output (24 * 1 + 2) =
        pulse (((fun i => if i = 1 then 0x204080 else 0) 1).testBit (15 - 2)) ∧
      s'.spi_output (24 * 1 + 8 + 2) =
        pulse (((fun i => if i = 1 then 0x204080 else 0) 1).testBit (23 - 2)) ∧
      s'.spi_output (24 * 1 + 16 + 2) =
        pulse (((fun i => if i = 1 then 0x204080 else 0) 1).testBit (7 - 2)) ∧
      GRN_MASK.testBit (15 - 2) = true ∧ RED_MASK.testBit (23 - 2) = true ∧
      BLU_MASK.testBit (7 - 2) = true ∧
      pulse true = 0xFE ∧ pulse false = 0x80 :=
  channel_groups_green_red_blue board8 fastClock 1 (fun i => if i = 1 then 0x204080 else 0) 2
    idleState 1 2 (by decide) (by decide) (by decide) (by decide) (Or.inl rfl)
    ⟨0, by decide, by decide⟩

theorem pulse_eq_PIXL_1 (b : Bool) : pulse b = PIXL_1 ↔ b = true := by
  cases b <;> decide

theorem srcBit_perm : ((List.range 24).map srcBit).Perm (List.range 24) := by
  decide

theorem filter_isWriteBuf_bufEvents (colors : Nat → Nat) (n : Nat) :
    (bufEvents colors n).filter Event.isWriteBuf = bufEvents colors n := by
  apply List.filter_eq_self.2
  intro e he
  obtain ⟨j, _, rfl⟩ := List.mem_map.1 he
  rfl

theorem filter_isWriteBuf_drain (drain : List Event)
    (h : ∀ e ∈ drain, e = Event.readFlag false ∨ e = Event.irq) :
    drain.filter Event.isWriteBuf = [] := by
  apply List.filter_eq_nil_iff.2
  intro e he
  rcases h e he with rfl | rfl <;> simp [Event.isWriteBuf]

theorem filter_isWriteBuf_reads (reads : List Event)
    (h : ∀ e ∈ reads, ∃ v, e = Event.readTimer v ∧ v < PIXL_RESET) :
    reads.filter Event.isWriteBuf = [] := by
  apply List.filter_eq_nil_iff.2
  intro e he
  obtain ⟨v, rfl, _⟩ := h e he
  simp [Event.isWriteBuf]

/-- C3: a successful call for `count` pixels that fit the buffer makes exactly
`24 * count` stores to the pulse buffer, one to each index below `24 * count`
in increasing order, of the byte found there afterwards; each of these bytes is
the "0" pattern `0x80` or the "1" pattern `0xFE`; and for every pixel `p` the
number of `0xFE` bytes among its 24 equals the number of set bits among the
low 24 bits of `colors[p]`. -/
theorem exactly_24_pulse_bytes_per_pixel (T : Target) (env : Env) (fuel : Nat)
    (colors : Nat → Nat) (count : Nat) (s : State)
    (hcount : 1 ≤ count) (hcap : count ≤ T.NUM_PIXELS)
    (hd : s.is_pixel_xmit_complete = true ∨ ∃ j, j < fuel ∧ env.irq j = true)
    (ht : ∃ i, i < fuel ∧ PIXL_RESET ≤ timerAt env i) :
    ∃ s', spi_pixl_update T env fuel (some colors) count s = Outcome.returned 0 s' ∧
      (newEvents s (Outcome.returned 0 s')).filter Event.isWriteBuf =
        (List.range (24 * count)).map (fun j => Event.writeBuf j (s'.spi_output j)) ∧
      ((newEvents s (Outcome.returned 0 s')).filter Event.isWriteBuf).length = 24 * count ∧
      (∀ j, j < 24 * count → s'.spi_output j = 0x80 ∨ s'.spi_output j = 0xFE) ∧
      (∀ p, p < count →
        (List.range 24).countP (fun k => decide (s'.spi_output (24 * p + k) = 0xFE)) =
          (List.range 24).countP (fun i => (colors p).testBit i)) := by
  obtain ⟨s', hr, hbuf, _⟩ := update_buffer T env fuel colors count s hcount hcap hd ht
  have hev : (newEvents s (Outcome.returned 0 s')).filter Event.isWriteBuf =
      (List.range (24 * count)).map (fun j => Event.writeBuf j (s'.spi_output j)) := by
    obtain ⟨drain, hdr, h⟩ := update_trace T env fuel colors count s hcount
    rw [← hr]
    rcases h with ⟨s2, hr2, _⟩ | ⟨x, reads, hrd, h⟩
    · rw [hr] at hr2; cases hr2
    · rcases h with ⟨s2, hr2, _⟩ | ⟨s5, m, _, _, _, hev⟩
      · rw [hr] at hr2; cases hr2
      · rw [hev]
        simp only [List.filter_append, filter_isWriteBuf_drain drain hdr,
          filter_isWriteBuf_reads reads hrd, filter_isWriteBuf_bufEvents]
        simp only [armEvents, List.filter, Event.isWriteBuf, List.nil_append, List.append_nil]
        unfold bufEvents
        apply List.map_congr_left
        intro j hj
        rw [hbuf, if_pos (by simpa using hj)]
  refine ⟨s', hr, hev, by rw [hev]; simp, ?_, ?_⟩
  · intro j hj
    rw [hbuf, if_pos hj]
    unfold encByte pulse
    split
    · right; rfl
    · left; rfl
  · intro p hp
    have h1 : (List.range 24).countP (fun k => decide (s'.spi_output (24 * p + k) = 0xFE)) =
        (List.range 24).countP (fun k => (colors p).testBit (srcBit k)) := by
      apply List.countP_congr
      intro k hk
      have hk24 : k < 24 := by simpa using hk
      rw [hbuf, if_pos (by omega), encByte_pixel colors p k hk24]
      simp only [decide_eq_true_eq]
      exact pulse_eq_PIXL_1 _
    rw [h1]
    have h2 := List.countP_map (fun i => (colors p).testBit i) srcBit (List.range 24)
    have h3 := srcBit_perm.countP_eq (fun i => (colors p).testBit i)
    rw [← h3, h2]
    rfl

/-- C3, a run: three pixels on the eight-pixel board. -/
theorem exactly_24_pulse_bytes_per_pixel_witness :
    ∃ s', spi_pixl_update board8 fastClock 1 (some (fun i => 0x123456 + i)) 3 idleState =
        Outcome.returned 0 s' ∧
      (newEvents idleState (Outcome.returned 0 s')).filter Event.isWriteBuf =
        (List.range (24 * 3)).map (fun j => Event.writeBuf j (s'.spi_output j)) ∧
      ((newEvents idleState (Outcome.returned 0 s')).filter Event.isWriteBuf).length = 24 * 3 ∧
      (∀ j, j < 24 * 3 → s'.spi_output j = 0x80 ∨ s'.spi_output j = 0xFE) ∧
      (∀ p, p < 3 →
        (List.range 24).countP (fun k => decide (s'.spi_output (24 * p + k) = 0xFE)) =
          (List.range 24).countP (fun i => ((fun i => 0x123456 + i) p).testBit i)) :=
  exactly_24_pulse_bytes_per_pixel board8 fastClock 1 (fun i => 0x123456 + i) 3 idleState
    (by decide) (by decide) (Or.inl rfl) ⟨0, by decide, by decide⟩

/-- C4: a call with a null colour pointer (any count) or with a count of zero
(any colours) returns the invalid-argument status `-1` and leaves the whole
state as it was: pulse buffer, flag, timer, pin-control register, DMA
registers, and no event recorded. -/
theorem invalid_arguments_no_side_effects (T : Target) (env : Env) (fuel : Nat)
    (colors : Option (Nat → Nat)) (count : Nat) (s : State) :
    spi_pixl_update T env fuel none count s = Outcome.returned (-1) s ∧
    spi_pixl_update T env fuel colors 0 s = Outcome.returned (-1) s := by
  refine ⟨rfl, ?_⟩
  cases colors <;> rfl

/-! ## Stores past the end of the buffer -/

theorem oobOf_append (cap : Nat) (a b : List Event) :
    oobOf cap (a ++ b) = oobOf cap a ++ oobOf cap b := by
  simp [oobOf, List.filterMap_append]

theorem storePulse_oobOf (T : Target) (i v : Nat) (s : State) :
    (storePulse T i v s).oob =
      s.oob ++ oobOf (T.NUM_PIXELS * BITS_PER_PIXEL) [Event.writeBuf i v] := by
  rw [storePulse_oob]
  by_cases h : i < T.NUM_PIXELS * BITS_PER_PIXEL
  · simp [oobOf, h]
  · simp [oobOf, h]

theorem emits_oob (T : Target) (colors : Nat → Nat) (ms : List Nat) (l : Locals) :
    ∃ evs, (emits T colors ms l).st.trace = l.st.trace ++ evs ∧
      (emits T colors ms l).st.oob = l.st.oob ++ oobOf (T.NUM_PIXELS * BITS_PER_PIXEL) evs := by
  induction ms generalizing l with
  | nil => exact ⟨[], by simp [emits], by simp [emits, oobOf]⟩
  | cons m ms ih =>
    obtain ⟨evs, h1, h2⟩ := ih (emit T colors m l)
    refine ⟨Event.writeBuf l.spi_idx (emitVal (colors l.color) m) :: evs, ?_, ?_⟩
    · simp only [emits, List.foldl_cons] at h1 ⊢
      rw [h1, emit_st, storePulse_trace]
      simp
    · simp only [emits, List.foldl_cons] at h2 ⊢
      rw [h2, emit_st, storePulse_oobOf, List.append_assoc, ← oobOf_append]
      rfl

theorem pixelLoop_oob (T : Target) (colors : Nat → Nat) (n d : Nat) :
    ∀ (i : Nat) (l : Locals), n = i + d →
    ∃ evs, (pixelLoop T colors n i l).st.trace = l.st.trace ++ evs ∧
      (pixelLoop T colors n i l).st.oob =
        l.st.oob ++ oobOf (T.NUM_PIXELS * BITS_PER_PIXEL) evs := by
  induction d with
  | zero =>
    intro i l hn
    rw [pixelLoop_done T colors n i l (by omega)]
    exact ⟨[], by simp, by simp [oobOf]⟩
  | succ d ih =>
    intro i l hn
    rw [pixelLoop_step T colors n i l (by omega)]
    obtain ⟨evs2, h1, h2⟩ := ih (i + 1) (pixelBody T colors l) (by omega)
    obtain ⟨evs1, g1, g2⟩ := emits_oob T colors pixelMasks l
    have e1 : (pixelBody T colors l).st.trace = l.st.trace ++ evs1 := by
      rw [pixelBody_eq]; exact g1
    have e2 : (pixelBody T colors l).st.oob =
        l.st.oob ++ oobOf (T.NUM_PIXELS * BITS_PER_PIXEL) evs1 := by
      rw [pixelBody_eq]; exact g2
    refine ⟨evs1 ++ evs2, ?_, ?_⟩
    · rw [h1, e1, List.append_assoc]
    · rw [h2, e2, List.append_assoc, ← oobOf_append]

/-- The stores of the encoder that land past the end of the array. -/
theorem encode_oob (T : Target) (colors : Nat → Nat) (n : Nat) (s : State) :
    (encode T colors n s).st.oob =
      s.oob ++ oobOf (T.NUM_PIXELS * BITS_PER_PIXEL) (bufEvents colors n) := by
  obtain ⟨evs, h1, h2⟩ := pixelLoop_oob T colors n n 0 { st := s, spi_idx := 0, color := 0 }
    (by omega)
  have h3 := encode_trace T colors n s
  unfold encode at h3 ⊢
  rw [h1] at h3
  have h4 : evs = bufEvents colors n := List.append_cancel_left h3
  rw [h2, h4]

/-- A successful call for any positive count: what it stores past the end of
the array. -/
theorem update_oob (T : Target) (env : Env) (fuel : Nat) (colors : Nat → Nat) (n : Nat)
    (s : State) (hn : 0 < n)
    (hd : s.is_pixel_xmit_complete = true ∨ ∃ j, j < fuel ∧ env.irq j = true)
    (ht : ∃ k, k < fuel ∧ PIXL_RESET ≤ timerAt env k) :
    ∃ s', spi_pixl_update T env fuel (some colors) n s = Outcome.returned 0 s' ∧
      s'.oob = s.oob ++ oobOf (T.NUM_PIXELS * BITS_PER_PIXEL) (bufEvents colors n) := by
  obtain ⟨drain, reads, s1, E, s5, m, _, _, _, hE, _, _, c3, _, _, hr, _, _, _, d4, _⟩ :=
    update_returns T env fuel colors n s hn hd ht
  refine ⟨arm T s5, hr, ?_⟩
  show s5.oob = _
  rw [d4, hE, encode_oob, ← c3]
  rfl

/-- C5 fails on the code: with nine colours for the eight-pixel buffer the
call returns success `0`, not an error status, and makes 24 stores past the
end of the 192-byte array, at the indices 192 to 215. -/
theorem overrun_returns_success :
    ∃ s', spi_pixl_update board8 fastClock 1 (some (fun _ => 0)) 9 idleState =
        Outcome.returned 0 s' ∧
      s'.oob = (List.range 24).map (fun k => (24 * board8.NUM_PIXELS + k, 0x80)) := by
  obtain ⟨s', hr, ho⟩ := update_oob board8 fastClock 1 (fun _ => 0) 9 idleState
    (by decide) (Or.inl rfl) ⟨0, by decide, by decide⟩
  refine ⟨s', hr, ?_⟩
  rw [ho]
  decide

/-- C6: a successful call for `count` pixels that fit the buffer leaves every
pulse-buffer byte at an index `≥ 24 * count` as it was before the call. -/
theorem trailing_bytes_untouched (T : Target) (env : Env) (fuel : Nat)
    (colors : Nat → Nat) (count : Nat) (s : State)
    (hcount : 1 ≤ count) (hcap : count ≤ T.NUM_PIXELS)
    (hd : s.is_pixel_xmit_complete = true ∨ ∃ j, j < fuel ∧ env.irq j = true)
    (ht : ∃ i, i < fuel ∧ PIXL_RESET ≤ timerAt env i) :
    ∃ s', spi_pixl_update T env fuel (some colors) count s = Outcome.returned 0 s' ∧
      ∀ j, 24 * count ≤ j → s'.spi_output j = s.spi_output j := by
  obtain ⟨s', hr, hbuf, _⟩ := update_buffer T env fuel colors count s hcount hcap hd ht
  refine ⟨s', hr, ?_⟩
  intro j hj
  rw [hbuf, if_neg (by omega)]

/-- C6, a run: two pixels into a buffer that held `0x55` everywhere. -/
theorem trailing_bytes_untouched_witness :
    ∃ s', spi_pixl_update board8 fastClock 1 (some (fun _ => 0xFFFFFF)) 2
        { idleState with spi_output := fun _ => 0x55 } = Outcome.returned 0 s' ∧
      ∀ j, 24 * 2 ≤ j → s'.spi_output j = 0x55 :=
  trailing_bytes_untouched board8 fastClock 1 (fun _ => 0xFFFFFF) 2
    { idleState with spi_output := fun _ => 0x55 }
    (by decide) (by decide) (Or.inl rfl) ⟨0, by decide, by decide⟩

/-! ## The transmit state machine -/

/-- C7: a call with a non-null colour pointer and `1 ≤ count ≤ NUM_PIXELS`
that starts with the flag true, and whose timer reads at least 70 at some
poll within the budget, returns success `0` and leaves the controller armed,
whatever the registers held before: flag false, MUX field of the MOSI pin
exactly `SPI_MUX_ALT` (2), source address of DMA channel 1 the address of the
pulse buffer, ERQ bit of DMA channel 1 set. -/
theorem returns_armed (T : Target) (env : Env) (fuel : Nat)
    (colors : Nat → Nat) (count : Nat) (s : State) (k : Nat)
    (hcount : 1 ≤ count) (hcap : count ≤ T.NUM_PIXELS)
    (haddr : T.spi_output_addr < 2 ^ 32)
    (hflag : s.is_pixel_xmit_complete = true)
    (ht : PIXL_RESET ≤ timerAt env k) (hfuel : k < fuel) :
    ∃ s', spi_pixl_update T env fuel (some colors) count s = Outcome.returned 0 s' ∧
      s'.is_pixel_xmit_complete = false ∧
      muxField s'.pcr_mosi = SPI_MUX_ALT ∧ SPI_MUX_ALT = 2 ∧
      s'.sar = T.spi_output_addr ∧
      s'.dcr = s.dcr ||| DMA_DCR_ERQ_MASK ∧
      s'.dcr &&& DMA_DCR_ERQ_MASK = DMA_DCR_ERQ_MASK := by
  have _ := hcap
  obtain ⟨drain, reads, s1, E, s5, m, _, _, _, hE, _, _, _, _, c5, hr, _, _, _, _, _, d6, _,
      _, d9⟩ :=
    update_returns T env fuel colors count s hcount (Or.inl hflag) ⟨k, hfuel, ht⟩
  have hf := encode_frame T colors count (startReset s1)
  have hpcr : s5.pcr_mosi = s1.pcr_mosi &&& not32 PORT_PCR_MUX_MASK := by
    rw [d6, hE, hf.2.2.1]; rfl
  have hdcr : s5.dcr = s.dcr := by
    rw [d9, hE, hf.2.2.2.2.2.1, ← c5]; rfl
  have hor : (s.dcr ||| DMA_DCR_ERQ_MASK) &&& DMA_DCR_ERQ_MASK = DMA_DCR_ERQ_MASK := by
    rw [Nat.and_distrib_right, Nat.and_self]
    apply Nat.eq_of_testBit_eq
    intro i
    simp only [Nat.testBit_or, Nat.testBit_and]
    cases (s.dcr).testBit i <;> cases (DMA_DCR_ERQ_MASK).testBit i <;> rfl
  refine ⟨arm T s5, hr, rfl, ?_, rfl, ?_, ?_, ?_⟩
  · show muxField (s5.pcr_mosi ||| PORT_PCR_MUX SPI_MUX_ALT) = SPI_MUX_ALT
    rw [hpcr, muxField_set]
  · show DMA_SAR_SAR (T.spi_output_addr % 2 ^ 32) = T.spi_output_addr
    unfold DMA_SAR_SAR
    have h32 : (0xFFFFFFFF : Nat) = 2 ^ 32 - 1 := by norm_num
    rw [h32, Nat.and_pow_two_sub_one_eq_mod, Nat.mod_mod, Nat.mod_eq_of_lt haddr]
  · show s5.dcr ||| DMA_DCR_ERQ_MASK = _
    rw [hdcr]
  · show (s5.dcr ||| DMA_DCR_ERQ_MASK) &&& DMA_DCR_ERQ_MASK = _
    rw [hdcr, hor]

/-- C7, a run: registers full of ones before the call, the timer reaching 70
at its third reading. -/
theorem returns_armed_witness :
    ∃ s', spi_pixl_update board8 slowClock 3 (some (fun _ => 0x0000FF)) 8
        { idleState with pcr_mosi := 0xFFFFFFFF, sar := 0xFFFFFFFF, dcr := 0xBFFFFFFF } =
          Outcome.returned 0 s' ∧
      s'.is_pixel_xmit_complete = false ∧
      muxField s'.pcr_mosi = SPI_MUX_ALT ∧ SPI_MUX_ALT = 2 ∧
      s'.sar = board8.spi_output_addr ∧
      s'.dcr = 0xBFFFFFFF ||| DMA_DCR_ERQ_MASK ∧
      s'.dcr &&& DMA_DCR_ERQ_MASK = DMA_DCR_ERQ_MASK :=
  returns_armed board8 slowClock 3 (fun _ => 0x0000FF) 8
    { idleState with pcr_mosi := 0xFFFFFFFF, sar := 0xFFFFFFFF, dcr := 0xBFFFFFFF } 2
    (by decide) (by decide) (by decide) rfl (by decide) (by decide)

theorem not32_mux_testBit (i : Nat) :
    (not32 PORT_PCR_MUX_MASK).testBit i = (decide (i < 32) && !decide (8 ≤ i ∧ i ≤ 10)) := by
  by_cases hi : i < 32
  · interval_cases i <;> decide
  · have h : not32 PORT_PCR_MUX_MASK < 2 ^ i :=
      Nat.lt_of_lt_of_le (by decide : not32 PORT_PCR_MUX_MASK < 2 ^ 32)
        (Nat.pow_le_pow_right (by decide) (by omega))
    rw [Nat.testBit_lt_two_pow h]
    simp [hi]

/-- C10: from every state the completion handler sets the
transmission-complete flag to true, clears the MUX field of the MOSI pin to 0,
stores the DONE bit to the status register of DMA channel 1 (the old value
with DONE or-ed in), and leaves the pulse buffer, every other bit of the
32-bit pin-control register, the timer and the other DMA registers as they
were. -/
theorem DMA1_IRQHandler_effect (s : State) :
    (DMA1_IRQHandler s).is_pixel_xmit_complete = true ∧
    muxField (DMA1_IRQHandler s).pcr_mosi = 0 ∧
    (DMA1_IRQHandler s).dsr_bcr = s.dsr_bcr ||| DMA_DSR_BCR_DONE_MASK ∧
    (DMA1_IRQHandler s).dsr_bcr.testBit 24 = true ∧
    (DMA1_IRQHandler s).spi_output = s.spi_output ∧
    (DMA1_IRQHandler s).oob = s.oob ∧
    (∀ i, (DMA1_IRQHandler s).pcr_mosi.testBit i =
      (decide (i < 32) && !decide (8 ≤ i ∧ i ≤ 10) && s.pcr_mosi.testBit i)) ∧
    (DMA1_IRQHandler s).timer = s.timer ∧
    (DMA1_IRQHandler s).sar = s.sar ∧
    (DMA1_IRQHandler s).dcr = s.dcr := by
  refine ⟨rfl, muxField_clear s.pcr_mosi, rfl, ?_, rfl, rfl, ?_, rfl, rfl, rfl⟩
  · show (s.dsr_bcr ||| DMA_DSR_BCR_DONE_MASK).testBit 24 = true
    rw [Nat.testBit_or]
    have h : DMA_DSR_BCR_DONE_MASK.testBit 24 = true := by decide
    rw [h, Bool.or_true]
  · intro i
    show (s.pcr_mosi &&& not32 PORT_PCR_MUX_MASK).testBit i = _
    rw [Nat.testBit_and, not32_mux_testBit, Bool.and_comm]

/-! ## Order of the events of a call -/

theorem store_after_flag_true (drain rest pre post : List Event) (e : Event)
    (hdr : ∀ x ∈ drain, x = Event.readFlag false ∨ x = Event.irq)
    (hrest : rest = [] ∨ ∃ r, rest = Event.readFlag true :: r)
    (h : drain ++ rest = pre ++ e :: post) (he : e.isStore = true) :
    Event.readFlag true ∈ pre := by
  rcases List.append_eq_append_iff.1 h with ⟨a', h1, h2⟩ | ⟨c', h1, h2⟩
  · rcases hrest with h0 | ⟨r, h0⟩
    · rw [h0] at h2
      cases a' <;> simp at h2
    · rw [h0] at h2
      cases a' with
      | nil =>
        simp only [List.nil_append, List.cons.injEq] at h2
        rw [← h2.1] at he
        simp [Event.isStore] at he
      | cons y a2 =>
        simp only [List.cons_append, List.cons.injEq] at h2
        rw [h1, ← h2.1]
        simp
  · cases c' with
    | nil =>
      simp only [List.nil_append] at h2
      rcases hrest with h0 | ⟨r, h0⟩
      · rw [h0] at h2; simp at h2
      · rw [h0] at h2
        simp only [List.cons.injEq] at h2
        rw [h2.1] at he
        simp [Event.isStore] at he
    | cons y c2 =>
      simp only [List.cons_append, List.cons.injEq] at h2
      have hy : e ∈ drain := by rw [h1, h2.1]; simp
      rcases hdr e hy with h3 | h3 <;> rw [h3] at he <;> simp [Event.isStore] at he

theorem split_at_writePCR (X Y pre post : List Event) (v0 v : Nat)
    (hX : ∀ e ∈ X, ∀ w, e ≠ Event.writePCR w)
    (h : X ++ Event.writePCR v0 :: Y = pre ++ Event.writePCR v :: post) :
    (pre = X ∧ v = v0 ∧ post = Y) ∨
      ∃ Z, pre = X ++ Event.writePCR v0 :: Z ∧ Y = Z ++ Event.writePCR v :: post := by
  rcases List.append_eq_append_iff.1 h with ⟨a', h1, h2⟩ | ⟨c', h1, h2⟩
  · cases a' with
    | nil =>
      simp only [List.nil_append, List.cons.injEq, Event.writePCR.injEq] at h2
      left
      exact ⟨by rw [h1, List.append_nil], h2.1.symm, h2.2.symm⟩
    | cons y Z =>
      simp only [List.cons_append, List.cons.injEq] at h2
      right
      exact ⟨Z, by rw [h1, ← h2.1], h2.2⟩
  · cases c' with
    | nil =>
      simp only [List.nil_append, List.cons.injEq, Event.writePCR.injEq] at h2
      left
      exact ⟨by rw [h1, List.append_nil], h2.1, h2.2⟩
    | cons y c2 =>
      simp only [List.cons_append, List.cons.injEq] at h2
      have hy : Event.writePCR v ∈ X := by rw [h1, ← h2.1]; simp
      exact absurd rfl (hX _ hy v)

theorem no_writePCR_drain (drain : List Event)
    (hdr : ∀ x ∈ drain, x = Event.readFlag false ∨ x = Event.irq) :
    ∀ e ∈ drain, e ≠ Event.resetTimer ∧ ∀ w, e ≠ Event.writePCR w := by
  intro e he
  rcases hdr e he with h | h <;> rw [h] <;> simp

theorem no_writePCR_bufEvents (colors : Nat → Nat) (n : Nat) :
    ∀ e ∈ bufEvents colors n, e ≠ Event.resetTimer ∧ ∀ w, e ≠ Event.writePCR w := by
  intro e he
  obtain ⟨j, _, rfl⟩ := List.mem_map.1 he
  simp

theorem no_writePCR_reads (reads : List Event)
    (hrd : ∀ e ∈ reads, ∃ v, e = Event.readTimer v ∧ v < PIXL_RESET) :
    ∀ e ∈ reads, e ≠ Event.resetTimer ∧ ∀ w, e ≠ Event.writePCR w := by
  intro e he
  obtain ⟨v, rfl, _⟩ := hrd e he
  simp

/-- A call that returns has re-enabled the output line: its events hold a
store to the pin-control register whose MUX field is `SPI_MUX_ALT`. -/
theorem returned_has_reenable (T : Target) (env : Env) (fuel : Nat) (colors : Nat → Nat)
    (n : Nat) (s : State) (hn : 0 < n)
    (hd : s.is_pixel_xmit_complete = true ∨ ∃ j, j < fuel ∧ env.irq j = true)
    (ht : ∃ k, k < fuel ∧ PIXL_RESET ≤ timerAt env k) :
    ∃ (pre : List Event) (v : Nat) (post : List Event),
      newEvents s (spi_pixl_update T env fuel (some colors) n s) =
        pre ++ Event.writePCR v :: post ∧
      muxField v = SPI_MUX_ALT := by
  obtain ⟨_, _, _, _, s5', _, _, _, _, _, _, _, _, _, _, hr, _⟩ :=
    update_returns T env fuel colors n s hn hd ht
  obtain ⟨drain, _, h⟩ := update_trace T env fuel colors n s hn
  rcases h with ⟨s2, hr2, _⟩ | ⟨x, reads, _, h⟩
  · rw [hr] at hr2; cases hr2
  · rcases h with ⟨s2, hr2, _⟩ | ⟨s5, m, _, _, hp, hev⟩
    · rw [hr] at hr2; cases hr2
    · refine ⟨drain ++ [Event.readFlag true, Event.resetTimer,
          Event.writePCR (x &&& not32 PORT_PCR_MUX_MASK)] ++
          bufEvents colors n ++ reads ++ [Event.readTimer (timerAt env m)] ++
          [Event.writeBCR (s5.dsr_bcr ||| DMA_DSR_BCR_BCR (BITS_PER_PIXEL * T.NUM_PIXELS)),
           Event.writeSAR (DMA_SAR_SAR (T.spi_output_addr % 2 ^ 32)),
           Event.writeFlag false],
        s5.pcr_mosi ||| PORT_PCR_MUX SPI_MUX_ALT,
        [Event.writeDCR (s5.dcr ||| DMA_DCR_ERQ_MASK)], ?_, ?_⟩
      · rw [hev]
        simp [armEvents]
      · rw [hp, muxField_set]

/-- C8: in every execution of `spi_pixl_update` with valid arguments, whether
it has returned or is still inside a busy-wait, every store of the call (to
the pulse buffer, the timer, the flag or a register) comes after a read of
the transmission-complete flag as true.  And when the flag is false at entry
and the completion handler never runs, the call has not returned after any
number of polls, has only read the flag as false, and the pulse buffer is as
it was. -/
theorem no_store_before_flag_read_true (T : Target) (env : Env) (fuel : Nat)
    (colors : Nat → Nat) (count : Nat) (s : State) (hcount : 1 ≤ count) :
    (∀ (pre : List Event) (e : Event) (post : List Event),
      newEvents s (spi_pixl_update T env fuel (some colors) count s) = pre ++ e :: post →
      e.isStore = true → Event.readFlag true ∈ pre) ∧
    (s.is_pixel_xmit_complete = false → (∀ k, env.irq k = false) →
      ∃ s', spi_pixl_update T env fuel (some colors) count s = Outcome.spinning s' ∧
        s'.spi_output = s.spi_output ∧ s'.oob = s.oob ∧
        newEvents s (spi_pixl_update T env fuel (some colors) count s) =
          List.replicate fuel (Event.readFlag false)) := by
  constructor
  · intro pre e post hsplit he
    obtain ⟨drain, hdr, h⟩ := update_trace T env fuel colors count s hcount
    rcases h with ⟨s2, _, hev⟩ | ⟨x, reads, _, h⟩
    · rw [hev] at hsplit
      exact store_after_flag_true drain [] pre post e hdr (Or.inl rfl)
        (by rw [List.append_nil]; exact hsplit) he
    · rcases h with ⟨s2, _, hev⟩ | ⟨s5, m, _, _, _, hev⟩
      · rw [hev] at hsplit
        exact store_after_flag_true drain
          (Event.readFlag true :: ([Event.resetTimer,
            Event.writePCR (x &&& not32 PORT_PCR_MUX_MASK)] ++ bufEvents colors count ++ reads))
          pre post e hdr (Or.inr ⟨_, rfl⟩) (by rw [← hsplit]; simp) he
      · rw [hev] at hsplit
        exact store_after_flag_true drain
          (Event.readFlag true :: ([Event.resetTimer,
            Event.writePCR (x &&& not32 PORT_PCR_MUX_MASK)] ++ bufEvents colors count ++ reads ++
            [Event.readTimer (timerAt env m)] ++ armEvents T s5))
          pre post e hdr (Or.inr ⟨_, rfl⟩) (by rw [← hsplit]; simp) he
  · intro hflag hirq
    have hw := waitXmit_stuck env hirq fuel 0 s hflag
    have hr : spi_pixl_update T env fuel (some colors) count s =
        Outcome.spinning
          { s with trace := s.trace ++ List.replicate fuel (Event.readFlag false) } := by
      rw [update_unfold T env fuel colors count s hcount, hw]
    refine ⟨_, hr, rfl, rfl, ?_⟩
    exact newEvents_eq s _ _ (by rw [hr]; rfl)

/-- C8, two runs: a call entered with a transfer in flight and no completion
interrupt is still spinning after 5 polls with the buffer untouched; and in a
call that returns, a store is found and it comes after the read of the flag
as true. -/
theorem no_store_before_flag_read_true_witness :
    (∃ s', spi_pixl_update board8 fastClock 5 (some (fun _ => 0xFFFFFF)) 8 busyState =
        Outcome.spinning s' ∧
      s'.spi_output = busyState.spi_output ∧ s'.oob = busyState.oob ∧
      newEvents busyState
          (spi_pixl_update board8 fastClock 5 (some (fun _ => 0xFFFFFF)) 8 busyState) =
        List.replicate 5 (Event.readFlag false)) ∧
    (∃ (pre : List Event) (e : Event) (post : List Event),
      newEvents idleState
          (spi_pixl_update board8 fastClock 1 (some (fun _ => 0xFFFFFF)) 8 idleState) =
        pre ++ e :: post ∧
      e.isStore = true ∧ Event.readFlag true ∈ pre) := by
  refine ⟨(no_store_before_flag_read_true board8 fastClock 5 (fun _ => 0xFFFFFF) 8 busyState
    (by decide)).2 rfl (fun _ => rfl), ?_⟩
  obtain ⟨pre, v, post, h1, _⟩ := returned_has_reenable board8 fastClock 1
    (fun _ => 0xFFFFFF) 8 idleState (by decide) (Or.inl rfl) ⟨0, by decide, by decide⟩
  exact ⟨pre, Event.writePCR v, post, h1, rfl,
    (no_store_before_flag_read_true board8 fastClock 1 (fun _ => 0xFFFFFF) 8 idleState
      (by decide)).1 pre (Event.writePCR v) post h1 rfl⟩

/-- C9: in every execution of `spi_pixl_update` with valid arguments, for
every environment (so also when the encoding step takes no time), a store
that routes the MOSI pin (MUX field not 0, such as `SPI_MUX_ALT`) comes only
after this sequence: the timer is reset, the very next event is the store
that clears the MUX field, and later the timer is read with a value of at
least `PIXL_RESET` (70), the microseconds passed since the reset, with no
other reset and no other pin-control store in between. -/
theorem reenable_only_after_reset_interval (T : Target) (env : Env) (fuel : Nat)
    (colors : Nat → Nat) (count : Nat) (s : State) (hcount : 1 ≤ count) :
    ∀ (pre : List Event) (v : Nat) (post : List Event),
      newEvents s (spi_pixl_update T env fuel (some colors) count s) =
        pre ++ Event.writePCR v :: post →
      muxField v ≠ 0 →
      ∃ (a : List Event) (v0 : Nat) (b : List Event) (k : Nat) (c : List Event),
        pre = a ++ [Event.resetTimer, Event.writePCR v0] ++ b ++
          [Event.readTimer (timerAt env k)] ++ c ∧
        muxField v0 = 0 ∧ PIXL_RESET ≤ timerAt env k ∧ PIXL_RESET = 70 ∧
        (∀ e ∈ b ++ c, e ≠ Event.resetTimer ∧ ∀ w, e ≠ Event.writePCR w) := by
  intro pre v post hsplit hv
  obtain ⟨drain, hdr, h⟩ := update_trace T env fuel colors count s hcount
  have hX : ∀ e ∈ drain ++ [Event.readFlag true, Event.resetTimer],
      ∀ w, e ≠ Event.writePCR w := by
    intro e he w
    rcases List.mem_append.1 he with h1 | h1
    · exact (no_writePCR_drain drain hdr e h1).2 w
    · simp at h1
      rcases h1 with h1 | h1 <;> rw [h1] <;> simp
  rcases h with ⟨s2, _, hev⟩ | ⟨x, reads, hrd, h⟩
  · rw [hev] at hsplit
    have hmem : Event.writePCR v ∈ drain := by rw [hsplit]; simp
    exact absurd rfl ((no_writePCR_drain drain hdr _ hmem).2 v)
  · have hbr : ∀ e ∈ bufEvents colors count ++ reads,
        e ≠ Event.resetTimer ∧ ∀ w, e ≠ Event.writePCR w := by
      intro e he
      rcases List.mem_append.1 he with h1 | h1
      · exact no_writePCR_bufEvents colors count e h1
      · exact no_writePCR_reads reads hrd e h1
    rcases h with ⟨s2, _, hev⟩ | ⟨s5, m, _, hge, _, hev⟩
    · rw [hev] at hsplit
      have h2 : (drain ++ [Event.readFlag true, Event.resetTimer]) ++
          Event.writePCR (x &&& not32 PORT_PCR_MUX_MASK) ::
            (bufEvents colors count ++ reads) = pre ++ Event.writePCR v :: post := by
        rw [← hsplit]; simp
      rcases split_at_writePCR _ _ pre post _ v hX h2 with ⟨_, h3, _⟩ | ⟨Z, _, h3⟩
      · rw [h3, muxField_clear] at hv
        exact absurd rfl hv
      · have hmem : Event.writePCR v ∈ bufEvents colors count ++ reads := by
          rw [h3]; simp
        exact absurd rfl ((hbr _ hmem).2 v)
    · rw [hev] at hsplit
      have h2 : (drain ++ [Event.readFlag true, Event.resetTimer]) ++
          Event.writePCR (x &&& not32 PORT_PCR_MUX_MASK) ::
            ((bufEvents colors count ++ reads ++ [Event.readTimer (timerAt env m),
                Event.writeBCR
                  (s5.dsr_bcr ||| DMA_DSR_BCR_BCR (BITS_PER_PIXEL * T.NUM_PIXELS)),
                Event.writeSAR (DMA_SAR_SAR (T.spi_output_addr % 2 ^ 32)),
                Event.writeFlag false]) ++
              Event.writePCR (s5.pcr_mosi ||| PORT_PCR_MUX SPI_MUX_ALT) ::
                [Event.writeDCR (s5.dcr ||| DMA_DCR_ERQ_MASK)]) =
          pre ++ Event.writePCR v :: post := by
        rw [← hsplit]; simp [armEvents]
      rcases split_at_writePCR _ _ pre post _ v hX h2 with ⟨_, h3, _⟩ | ⟨Z, hpre, h3⟩
      · rw [h3, muxField_clear] at hv
        exact absurd rfl hv
      · have hX2 : ∀ e ∈ bufEvents colors count ++ reads ++ [Event.readTimer (timerAt env m),
              Event.writeBCR (s5.dsr_bcr ||| DMA_DSR_BCR_BCR (BITS_PER_PIXEL * T.NUM_PIXELS)),
              Event.writeSAR (DMA_SAR_SAR (T.spi_output_addr % 2 ^ 32)),
              Event.writeFlag false], ∀ w, e ≠ Event.writePCR w := by
          intro e he w
          rcases List.mem_append.1 he with h1 | h1
          · exact (hbr e h1).2 w
          · simp at h1
            rcases h1 with h1 | h1 | h1 | h1 <;> rw [h1] <;> simp
        rcases split_at_writePCR _ _ Z post _ v hX2 h3 with ⟨hZ, _, _⟩ | ⟨Z', _, h4⟩
        · refine ⟨drain ++ [Event.readFlag true], x &&& not32 PORT_PCR_MUX_MASK,
            bufEvents colors count ++ reads, m,
            [Event.writeBCR (s5.dsr_bcr ||| DMA_DSR_BCR_BCR (BITS_PER_PIXEL * T.NUM_PIXELS)),
             Event.writeSAR (DMA_SAR_SAR (T.spi_output_addr % 2 ^ 32)),
             Event.writeFlag false], ?_, muxField_clear x, hge, rfl, ?_⟩
          · rw [hpre, hZ]; simp
          · intro e he
            rcases List.mem_append.1 he with h1 | h1
            · exact hbr e h1
            · simp at h1
              rcases h1 with h1 | h1 | h1 <;> rw [h1] <;> simp
        · have hmem : Event.writePCR v ∈ [Event.writeDCR (s5.dcr ||| DMA_DCR_ERQ_MASK)] := by
            rw [h4]; simp
          simp at hmem

/-- C9, a run: the encoding step takes no time, the timer reads 0, 35, 70;
the call returns, the store that routes the pin to the SPI is found, and it
comes after the reading of 70 or more. -/
theorem reenable_only_after_reset_interval_witness :
    ∃ (pre : List Event) (v : Nat) (post : List Event),
      newEvents idleState
          (spi_pixl_update board8 slowClock 3 (some (fun _ => 0x00FF00)) 1 idleState) =
        pre ++ Event.writePCR v :: post ∧
      muxField v = SPI_MUX_ALT ∧
      ∃ (a : List Event) (v0 : Nat) (b : List Event) (k : Nat) (c : List Event),
        pre = a ++ [Event.resetTimer, Event.writePCR v0] ++ b ++
          [Event.readTimer (timerAt slowClock k)] ++ c ∧
        muxField v0 = 0 ∧ PIXL_RESET ≤ timerAt slowClock k ∧ PIXL_RESET = 70 ∧
        (∀ e ∈ b ++ c, e ≠ Event.resetTimer ∧ ∀ w, e ≠ Event.writePCR w) := by
  obtain ⟨pre, v, post, h1, h2⟩ := returned_has_reenable board8 slowClock 3
    (fun _ => 0x00FF00) 1 idleState (by decide) (Or.inl rfl) ⟨2, by decide, by decide⟩
  exact ⟨pre, v, post, h1, h2,
    reenable_only_after_reset_interval board8 slowClock 3 (fun _ => 0x00FF00) 1 idleState
      (by decide) pre v post h1 (by rw [h2]; decide)⟩

/-! ## Relations between calls -/

/-- C11: for every two initial states, so for every two initial pulse-buffer
contents, successful calls for the same `count` colours that fit the buffer
yield the same first `24 * count` bytes; and a second successful call for the
same colours, made on the state the first call left (the completion interrupt
ends the first transfer while the second call drains), leaves the whole
buffer as the first call left it. -/
theorem encoding_is_idempotent (T : Target) (env env2 : Env) (fuel fuel2 : Nat)
    (colors : Nat → Nat) (count : Nat) (s t : State)
    (hcount : 1 ≤ count) (hcap : count ≤ T.NUM_PIXELS)
    (hds : s.is_pixel_xmit_complete = true ∨ ∃ j, j < fuel ∧ env.irq j = true)
    (hdt : t.is_pixel_xmit_complete = true ∨ ∃ j, j < fuel ∧ env.irq j = true)
    (ht : ∃ i, i < fuel ∧ PIXL_RESET ≤ timerAt env i)
    (hd2 : ∃ j, j < fuel2 ∧ env2.irq j = true)
    (ht2 : ∃ i, i < fuel2 ∧ PIXL_RESET ≤ timerAt env2 i) :
    ∃ s1 t1 s2,
      spi_pixl_update T env fuel (some colors) count s = Outcome.returned 0 s1 ∧
      spi_pixl_update T env fuel (some colors) count t = Outcome.returned 0 t1 ∧
      (∀ j, j < 24 * count → s1.spi_output j = t1.spi_output j) ∧
      spi_pixl_update T env2 fuel2 (some colors) count s1 = Outcome.returned 0 s2 ∧
      s2.spi_output = s1.spi_output := by
  obtain ⟨s1, hr1, hb1, _⟩ := update_buffer T env fuel colors count s hcount hcap hds ht
  obtain ⟨t1, hrt, hbt, _⟩ := update_buffer T env fuel colors count t hcount hcap hdt ht
  obtain ⟨s2, hr2, hb2, _⟩ :=
    update_buffer T env2 fuel2 colors count s1 hcount hcap (Or.inr hd2) ht2
  refine ⟨s1, t1, s2, hr1, hrt, ?_, hr2, ?_⟩
  · intro j hj
    rw [hb1, hbt, if_pos hj, if_pos hj]
  · funext j
    rw [hb2, hb1]
    split <;> rfl

/-- C11, a run: the same two pixels encoded from an all-zero buffer and from
a buffer of `0x55`, then again after the first call. -/
theorem encoding_is_idempotent_witness :
    ∃ s1 t1 s2,
      spi_pixl_update board8 fastClock 1 (some (fun i => 0x0F0F0F + i)) 2 idleState =
        Outcome.returned 0 s1 ∧
      spi_pixl_update board8 fastClock 1 (some (fun i => 0x0F0F0F + i)) 2
        { idleState with spi_output := fun _ => 0x55 } = Outcome.returned 0 t1 ∧
      (∀ j, j < 24 * 2 → s1.spi_output j = t1.spi_output j) ∧
      spi_pixl_update board8 { irq := fun _ => true, elapsed := fun _ => 70 } 1
        (some (fun i => 0x0F0F0F + i)) 2 s1 = Outcome.returned 0 s2 ∧
      s2.spi_output = s1.spi_output :=
  encoding_is_idempotent board8 fastClock { irq := fun _ => true, elapsed := fun _ => 70 } 1 1
    (fun i => 0x0F0F0F + i) 2 idleState { idleState with spi_output := fun _ => 0x55 }
    (by decide) (by decide) (Or.inl rfl) (Or.inl rfl) ⟨0, by decide, by decide⟩
    ⟨0, by decide, rfl⟩ ⟨0, by decide, by decide⟩

theorem srcBit_lt (k : Nat) (hk : k < 24) : srcBit k < 24 := by
  interval_cases k <;> decide

/-- C12: after a successful call for `count` pixels that fit the buffer, a
pixel whose colour is `0x000000` has all its 24 bytes equal to the "0"
pattern `0x80`, and a pixel whose colour is `0xFFFFFF` has all its 24 bytes
equal to the "1" pattern `0xFE`. -/
theorem black_and_white_pixels (T : Target) (env : Env) (fuel : Nat)
    (colors : Nat → Nat) (count : Nat) (s : State)
    (hcount : 1 ≤ count) (hcap : count ≤ T.NUM_PIXELS)
    (hd : s.is_pixel_xmit_complete = true ∨ ∃ j, j < fuel ∧ env.irq j = true)
    (ht : ∃ i, i < fuel ∧ PIXL_RESET ≤ timerAt env i) :
    ∃ s', spi_pixl_update T env fuel (some colors) count s = Outcome.returned 0 s' ∧
      ∀ p, p < count →
        (colors p = 0x000000 → ∀ k, k < 24 → s'.spi_output (24 * p + k) = 0x80) ∧
        (colors p = 0xFFFFFF → ∀ k, k < 24 → s'.spi_output (24 * p + k) = 0xFE) := by
  obtain ⟨s', hr, hbuf, _⟩ := update_buffer T env fuel colors count s hcount hcap hd ht
  refine ⟨s', hr, ?_⟩
  intro p hp
  constructor
  · intro hc k hk
    rw [hbuf, if_pos (by omega), encByte_pixel colors p k hk, hc, Nat.zero_testBit]
    rfl
  · intro hc k hk
    have h24 : (0xFFFFFF : Nat) = 2 ^ 24 - 1 := by norm_num
    rw [hbuf, if_pos (by omega), encByte_pixel colors p k hk, hc, h24,
      Nat.testBit_two_pow_sub_one, decide_eq_true (srcBit_lt k hk)]
    rfl

/-- C12, the end-to-end run: 8 pixels `[0x000000, 0xFFFFFF, 0, 0, ...]` on
the eight-pixel board, whose buffer has `8 * 24 = 192` bytes; pixel 0 is all
`0x80`, pixel 1 is all `0xFE`. -/
theorem black_and_white_pixels_witness :
    board8.NUM_PIXELS * BITS_PER_PIXEL = 192 ∧
    ∃ s', spi_pixl_update board8 fastClock 1
        (some (fun i => if i = 1 then 0xFFFFFF else 0x000000)) 8 idleState =
          Outcome.returned 0 s' ∧
      (∀ k, k < 24 → s'.spi_output (24 * 0 + k) = 0x80) ∧
      (∀ k, k < 24 → s'.spi_output (24 * 1 + k) = 0xFE) := by
  obtain ⟨s', hr, h⟩ := black_and_white_pixels board8 fastClock 1
    (fun i => if i = 1 then 0xFFFFFF else 0x000000) 8 idleState
    (by decide) (by decide) (Or.inl rfl) ⟨0, by decide, by decide⟩
  exact ⟨by decide, s', hr, (h 0 (by decide)).1 rfl, (h 1 (by decide)).2 rfl⟩

/-- C18: for two colour arrays that agree on the low 24 bits of each of
their `count` words, successful calls for `count` pixels that fit the
buffer, started from the same state in the same environment, leave
identical pulse buffers (and identical records of stores past the array,
none): bits 31-24 of a colour word have no influence on the output. -/
theorem high_byte_has_no_influence (T : Target) (env : Env) (fuel : Nat)
    (colors1 colors2 : Nat → Nat) (count : Nat) (s : State)
    (hcount : 1 ≤ count) (hcap : count ≤ T.NUM_PIXELS)
    (hlow : ∀ i, i < count → colors1 i % 2 ^ 24 = colors2 i % 2 ^ 24)
    (hd : s.is_pixel_xmit_complete = true ∨ ∃ j, j < fuel ∧ env.irq j = true)
    (ht : ∃ i, i < fuel ∧ PIXL_RESET ≤ timerAt env i) :
    ∃ s1 s2,
      spi_pixl_update T env fuel (some colors1) count s = Outcome.returned 0 s1 ∧
      spi_pixl_update T env fuel (some colors2) count s = Outcome.returned 0 s2 ∧
      s1.spi_output = s2.spi_output ∧ s1.oob = s2.oob := by
  obtain ⟨s1, hr1, hb1, ho1⟩ := update_buffer T env fuel colors1 count s hcount hcap hd ht
  obtain ⟨s2, hr2, hb2, ho2⟩ := update_buffer T env fuel colors2 count s hcount hcap hd ht
  refine ⟨s1, s2, hr1, hr2, ?_, by rw [ho1, ho2]⟩
  funext j
  rw [hb1, hb2]
  by_cases hj : j < 24 * count
  · rw [if_pos hj, if_pos hj]
    unfold encByte
    have hp : j / 24 < count := by omega
    have hb : srcBit (j % 24) < 24 := srcBit_lt _ (Nat.mod_lt _ (by decide))
    have h1 := Nat.testBit_mod_two_pow (colors1 (j / 24)) 24 (srcBit (j % 24))
    have h2 := Nat.testBit_mod_two_pow (colors2 (j / 24)) 24 (srcBit (j % 24))
    rw [decide_eq_true hb, Bool.true_and] at h1 h2
    rw [← h1, ← h2, hlow (j / 24) hp]
  · rw [if_neg hj, if_neg hj]

/-- C18, a run: two arrays that differ only in bits 31-24 of their words. -/
theorem high_byte_has_no_influence_witness :
    ∃ s1 s2,
      spi_pixl_update board8 fastClock 1 (some (fun _ => 0x00123456)) 2 idleState =
        Outcome.returned 0 s1 ∧
      spi_pixl_update board8 fastClock 1 (some (fun _ => 0xFF123456)) 2 idleState =
        Outcome.returned 0 s2 ∧
      s1.spi_output = s2.spi_output ∧ s1.oob = s2.oob :=
  high_byte_has_no_influence board8 fastClock 1 (fun _ => 0x00123456) (fun _ => 0xFF123456) 2
    idleState (by decide) (by decide)
    (fun _ _ => show (0x00123456 : Nat) % 2 ^ 24 = 0xFF123456 % 2 ^ 24 by decide) (Or.inl rfl)
    ⟨0, by decide, by decide⟩

/-! ## Arming the transfer -/

/-- C14: in every successful call, the last five events are, in this order,
the stores of the DMA byte count, of the DMA source address, of `false` to
the flag, of the pin-control value that routes the MOSI pin to the SPI, and
of the DCR value with ERQ set, which is the last effect before the return;
no DCR store comes earlier in the call, and all `24 * count` stores to the
pulse buffer come before these five. -/
theorem erq_enabled_last (T : Target) (env : Env) (fuel : Nat)
    (colors : Nat → Nat) (count : Nat) (s : State) (hcount : 1 ≤ count)
    (hd : s.is_pixel_xmit_complete = true ∨ ∃ j, j < fuel ∧ env.irq j = true)
    (ht : ∃ i, i < fuel ∧ PIXL_RESET ≤ timerAt env i) :
    ∃ (s' : State) (body : List Event),
      spi_pixl_update T env fuel (some colors) count s = Outcome.returned 0 s' ∧
      newEvents s (Outcome.returned 0 s') =
        body ++ [Event.writeBCR s'.dsr_bcr, Event.writeSAR s'.sar, Event.writeFlag false,
          Event.writePCR s'.pcr_mosi, Event.writeDCR s'.dcr] ∧
      s'.dcr &&& DMA_DCR_ERQ_MASK = DMA_DCR_ERQ_MASK ∧
      muxField s'.pcr_mosi = SPI_MUX_ALT ∧
      s'.sar = DMA_SAR_SAR (T.spi_output_addr % 2 ^ 32) ∧
      s'.is_pixel_xmit_complete = false ∧
      body.filter Event.isWriteBuf = bufEvents colors count ∧
      (∀ e ∈ body, ∀ v, e ≠ Event.writeDCR v) := by
  obtain ⟨_, _, _, _, s5', _, _, _, _, _, _, _, _, _, _, hr, _⟩ :=
    update_returns T env fuel colors count s hcount hd ht
  obtain ⟨drain, hdr, h⟩ := update_trace T env fuel colors count s hcount
  rcases h with ⟨s2, hr2, _⟩ | ⟨x, reads, hrd, h⟩
  · rw [hr] at hr2; cases hr2
  · rcases h with ⟨s2, hr2, _⟩ | ⟨s5, m, hr5, _, hp, hev⟩
    · rw [hr] at hr2; cases hr2
    · have hor : (s5.dcr ||| DMA_DCR_ERQ_MASK) &&& DMA_DCR_ERQ_MASK = DMA_DCR_ERQ_MASK := by
        apply Nat.eq_of_testBit_eq
        intro i
        simp only [Nat.testBit_or, Nat.testBit_and]
        cases (s5.dcr).testBit i <;> cases (DMA_DCR_ERQ_MASK).testBit i <;> rfl
      refine ⟨arm T s5, drain ++ [Event.readFlag true, Event.resetTimer,
          Event.writePCR (x &&& not32 PORT_PCR_MUX_MASK)] ++
          bufEvents colors count ++ reads ++ [Event.readTimer (timerAt env m)],
        hr5, ?_, hor, ?_, rfl, rfl, ?_, ?_⟩
      · rw [← hr5, hev]
        rfl
      · show muxField (s5.pcr_mosi ||| PORT_PCR_MUX SPI_MUX_ALT) = SPI_MUX_ALT
        rw [hp, muxField_set]
      · simp only [List.filter_append, filter_isWriteBuf_drain drain hdr,
          filter_isWriteBuf_reads reads hrd, filter_isWriteBuf_bufEvents]
        simp [List.filter, Event.isWriteBuf]
      · intro e he v
        simp only [List.mem_append, List.mem_cons, List.mem_singleton, List.not_mem_nil,
          or_false] at he
        rcases he with (((h1 | h1) | h1) | h1) | h1
        · rcases hdr e h1 with h2 | h2 <;> rw [h2] <;> simp
        · rcases h1 with h2 | h2 | h2 <;> rw [h2] <;> simp
        · obtain ⟨j, _, rfl⟩ := List.mem_map.1 h1
          simp
        · obtain ⟨w, rfl, _⟩ := hrd e h1
          simp
        · rw [h1]; simp

/-- C14, a run: one pixel, the timer reading 0, 35, 70. -/
theorem erq_enabled_last_witness :
    ∃ (s' : State) (body : List Event),
      spi_pixl_update board8 slowClock 3 (some (fun _ => 0x010203)) 1 idleState =
        Outcome.returned 0 s' ∧
      newEvents idleState (Outcome.returned 0 s') =
        body ++ [Event.writeBCR s'.dsr_bcr, Event.writeSAR s'.sar, Event.writeFlag false,
          Event.writePCR s'.pcr_mosi, Event.writeDCR s'.dcr] ∧
      s'.dcr &&& DMA_DCR_ERQ_MASK = DMA_DCR_ERQ_MASK ∧
      muxField s'.pcr_mosi = SPI_MUX_ALT ∧
      s'.sar = DMA_SAR_SAR (board8.spi_output_addr % 2 ^ 32) ∧
      s'.is_pixel_xmit_complete = false ∧
      body.filter Event.isWriteBuf = bufEvents (fun _ => 0x010203) 1 ∧
      (∀ e ∈ body, ∀ v, e ≠ Event.writeDCR v) :=
  erq_enabled_last board8 slowClock 3 (fun _ => 0x010203) 1 idleState (by decide)
    (Or.inl rfl) ⟨2, by decide, by decide⟩

theorem handler_bcrField (s : State) :
    bcrField (DMA1_IRQHandler s).dsr_bcr = bcrField s.dsr_bcr := by
  show (s.dsr_bcr ||| DMA_DSR_BCR_DONE_MASK) &&& 0xFFFFFF = s.dsr_bcr &&& 0xFFFFFF
  have h : DMA_DSR_BCR_DONE_MASK &&& 0xFFFFFF = 0 := by decide
  rw [Nat.and_distrib_right, h, Nat.or_zero]

/-- The drain loop leaves the byte-count field alone: the completion handler
only ors the DONE bit into the register. -/
theorem waitXmit_bcrField (env : Env) (fuel : Nat) :
    ∀ (k : Nat) (s s' : State),
      (waitXmit env fuel k s = Poll.passed s' ∨ waitXmit env fuel k s = Poll.pending s') →
      bcrField s'.dsr_bcr = bcrField s.dsr_bcr := by
  induction fuel with
  | zero =>
    intro k s s' h
    rcases h with h | h
    · simp [waitXmit] at h
    · simp only [waitXmit, Poll.pending.injEq] at h
      rw [← h]
  | succ fuel ih =>
    intro k s s' h
    by_cases hi : env.irq k = true
    · have hw : waitXmit env (fuel + 1) k s =
          Poll.passed ((DMA1_IRQHandler s).log (Event.readFlag true)) := by
        simp [waitXmit, hi, DMA1_IRQHandler, State.log]
      rw [hw] at h
      rcases h with h | h
      · simp only [Poll.passed.injEq] at h
        rw [← h]
        exact handler_bcrField s
      · cases h
    · by_cases hf : s.is_pixel_xmit_complete = true
      · have hw : waitXmit env (fuel + 1) k s = Poll.passed (s.log (Event.readFlag true)) := by
          simp [waitXmit, hi, hf]
        rw [hw] at h
        rcases h with h | h
        · simp only [Poll.passed.injEq] at h
          rw [← h]
          rfl
        · cases h
      · have hf' : s.is_pixel_xmit_complete = false := by simpa using hf
        have hw : waitXmit env (fuel + 1) k s =
            waitXmit env fuel (k + 1) (s.log (Event.readFlag false)) := by
          simp [waitXmit, hi, hf']
        rw [hw] at h
        exact ih (k + 1) (s.log (Event.readFlag false)) s' h

/-- C16: in every successful call, whatever `count` is, the byte-count field
of `DSR_BCR` after the call is the bitwise OR of its value at entry and
`24 * NUM_PIXELS` (a buffer size that fits the 24-bit field); entered with
the field 0 the programmed byte count is `24 * NUM_PIXELS`, not `24 * count`,
so for `count ≤ NUM_PIXELS` the armed transfer also covers the bytes from
`24 * count` on, which the call left as they were. -/
theorem byte_count_is_whole_buffer (T : Target) (env : Env) (fuel : Nat)
    (colors : Nat → Nat) (count : Nat) (s : State) (hcount : 1 ≤ count)
    (hfit : 24 * T.NUM_PIXELS < 2 ^ 24)
    (hd : s.is_pixel_xmit_complete = true ∨ ∃ j, j < fuel ∧ env.irq j = true)
    (ht : ∃ i, i < fuel ∧ PIXL_RESET ≤ timerAt env i) :
    ∃ s', spi_pixl_update T env fuel (some colors) count s = Outcome.returned 0 s' ∧
      bcrField s'.dsr_bcr = bcrField s.dsr_bcr ||| 24 * T.NUM_PIXELS ∧
      (bcrField s.dsr_bcr = 0 → bcrField s'.dsr_bcr = 24 * T.NUM_PIXELS) ∧
      (count ≤ T.NUM_PIXELS → ∀ j, 24 * count ≤ j → j < 24 * T.NUM_PIXELS →
        s'.spi_output j = s.spi_output j) := by
  obtain ⟨drain, reads, s1, E, s5, m, _, _, hw, hE, _, _, _, _, _, hr, _, _, _, _, _, _, d7,
      _⟩ := update_returns T env fuel colors count s hcount hd ht
  have h1 : bcrField s1.dsr_bcr = bcrField s.dsr_bcr :=
    waitXmit_bcrField env fuel 0 s s1 (Or.inl hw)
  have h5 : s5.dsr_bcr = s1.dsr_bcr := by
    rw [d7, hE, (encode_frame T colors count (startReset s1)).2.2.2.1]
    rfl
  have hmask : (0xFFFFFF : Nat) = 2 ^ 24 - 1 := by norm_num
  have hfield : bcrField (arm T s5).dsr_bcr = bcrField s.dsr_bcr ||| 24 * T.NUM_PIXELS := by
    show (s5.dsr_bcr ||| DMA_DSR_BCR_BCR (BITS_PER_PIXEL * T.NUM_PIXELS)) &&& 0xFFFFFF = _
    rw [Nat.and_distrib_right, h5]
    show bcrField s1.dsr_bcr ||| (24 * T.NUM_PIXELS &&& 0xFFFFFF) &&& 0xFFFFFF = _
    rw [h1, Nat.and_assoc, Nat.and_self, hmask, Nat.and_pow_two_sub_one_eq_mod,
      Nat.mod_eq_of_lt hfit]
  refine ⟨arm T s5, hr, hfield, ?_, ?_⟩
  · intro h0
    rw [hfield, h0, Nat.zero_or]
  · intro hcap j hj _
    obtain ⟨s2, hr2, hb, _⟩ := update_buffer T env fuel colors count s hcount hcap hd ht
    rw [hr] at hr2
    simp only [Outcome.returned.injEq, true_and] at hr2
    rw [hr2, hb, if_neg (by omega)]

/-- C16, a run: three pixels on the eight-pixel board, byte-count field 0 at
entry; the field then holds 192. -/
theorem byte_count_is_whole_buffer_witness :
    ∃ s', spi_pixl_update board8 fastClock 1 (some (fun _ => 0x010203)) 3 idleState =
        Outcome.returned 0 s' ∧
      bcrField s'.dsr_bcr = 192 ∧
      (∀ j, 24 * 3 ≤ j → j < 24 * board8.NUM_PIXELS →
        s'.spi_output j = idleState.spi_output j) := by
  obtain ⟨s', hr, _, h0, htail⟩ := byte_count_is_whole_buffer board8 fastClock 1
    (fun _ => 0x010203) 3 idleState (by decide) (by decide) (Or.inl rfl)
    ⟨0, by decide, by decide⟩
  exact ⟨s', hr, h0 (by decide), htail (by decide)⟩

/-! ## Bounds of the encoder -/

theorem writeBuf_mem_bufEvents (colors : Nat → Nat) (n i v : Nat)
    (h : Event.writeBuf i v ∈ bufEvents colors n) : i < 24 * n := by
  obtain ⟨j, hj, he⟩ := List.mem_map.1 h
  simp only [Event.writeBuf.injEq] at he
  rw [← he.1]
  simpa using hj

/-- C17: for `1 ≤ count ≤ NUM_PIXELS`, in every execution (returned or still
inside a busy-wait) no store of the call lands past the end of the array and
every store to the pulse buffer is at an index below `24 * NUM_PIXELS`; one
pass of the pixel-loop body advances the write index by exactly 24, and the
index is `24 * count` when the pixel loop ends; each of the three mask loops
ends after running its body exactly 8 times, for the 8 masks of its channel
from the most significant one down. -/
theorem writes_stay_in_bounds (T : Target) (env : Env) (fuel : Nat)
    (colors : Nat → Nat) (count : Nat) (s : State)
    (hcount : 1 ≤ count) (hcap : count ≤ T.NUM_PIXELS) :
    (spi_pixl_update T env fuel (some colors) count s).state.oob = s.oob ∧
    (∀ i v, Event.writeBuf i v ∈ newEvents s (spi_pixl_update T env fuel (some colors) count s) →
      i < T.NUM_PIXELS * BITS_PER_PIXEL) ∧
    (∀ l : Locals, (pixelBody T colors l).spi_idx = l.spi_idx + 24) ∧
    (∀ st : State, (encode T colors count st).spi_idx = 24 * count) ∧
    (∀ l : Locals,
      maskLoop T colors 0x80 0x8000 l =
        emits T colors [0x8000, 0x4000, 0x2000, 0x1000, 0x800, 0x400, 0x200, 0x100] l ∧
      maskLoop T colors 0x8000 0x800000 l =
        emits T colors
          [0x800000, 0x400000, 0x200000, 0x100000, 0x80000, 0x40000, 0x20000, 0x10000] l ∧
      maskLoop T colors 0 0x80 l =
        emits T colors [0x80, 0x40, 0x20, 0x10, 0x8, 0x4, 0x2, 0x1] l ∧
      (maskLoop T colors 0x80 0x8000 l).spi_idx = l.spi_idx + 8 ∧
      (maskLoop T colors 0x8000 0x800000 l).spi_idx = l.spi_idx + 8 ∧
      (maskLoop T colors 0 0x80 l).spi_idx = l.spi_idx + 8) := by
  have hloops : ∀ l : Locals,
      maskLoop T colors 0x80 0x8000 l =
        emits T colors [0x8000, 0x4000, 0x2000, 0x1000, 0x800, 0x400, 0x200, 0x100] l ∧
      maskLoop T colors 0x8000 0x800000 l =
        emits T colors
          [0x800000, 0x400000, 0x200000, 0x100000, 0x80000, 0x40000, 0x20000, 0x10000] l ∧
      maskLoop T colors 0 0x80 l =
        emits T colors [0x80, 0x40, 0x20, 0x10, 0x8, 0x4, 0x2, 0x1] l := by
    intro l
    refine ⟨?_, ?_, ?_⟩ <;> simp [maskLoop, emits]
  refine ⟨?_, ?_, fun l => (pixelBody_frame T colors l).2.2.2.2.2.2.2,
    fun st => (encode_frame T colors count st).2.2.2.2.2.2.2, ?_⟩
  · obtain ⟨drain, _, h⟩ := update_phases T env fuel colors count s hcount
    rcases h with ⟨s', hr, _, _, _, ho⟩ | ⟨s1, E, reads, _, hE, _, _, c3, _, _, _, h⟩
    · rw [hr]; exact ho
    · have hEo : E.oob = s.oob := by
        rw [hE, (encode_output T colors count (startReset s1) hcap 0).2, ← c3]
        rfl
      rcases h with ⟨s', hr, _, _, ho, _⟩ | ⟨s5, m, hr, _, _, _, ho, _⟩
      · rw [hr]
        show s'.oob = _
        rw [ho, hEo]
      · rw [hr]
        show s5.oob = _
        rw [ho, hEo]
  · intro i v hmem
    have hbound : 24 * count ≤ T.NUM_PIXELS * BITS_PER_PIXEL := by
      simp only [BITS_PER_PIXEL]; omega
    obtain ⟨drain, hdr, h⟩ := update_trace T env fuel colors count s hcount
    rcases h with ⟨s', _, hev⟩ | ⟨x, reads, hrd, h⟩
    · rw [hev] at hmem
      rcases hdr _ hmem with h1 | h1 <;> cases h1
    · rcases h with ⟨s', _, hev⟩ | ⟨s5, m, _, _, _, hev⟩
      · rw [hev] at hmem
        simp only [List.mem_append, List.mem_cons, List.mem_singleton, List.not_mem_nil,
          or_false] at hmem
        rcases hmem with ((h1 | h1) | h1) | h1
        · rcases hdr _ h1 with h2 | h2 <;> cases h2
        · rcases h1 with h2 | h2 | h2 <;> cases h2
        · exact Nat.lt_of_lt_of_le (writeBuf_mem_bufEvents colors count i v h1) hbound
        · obtain ⟨w, h2, _⟩ := hrd _ h1
          cases h2
      · rw [hev] at hmem
        simp only [armEvents, List.mem_append, List.mem_cons, List.mem_singleton,
          List.not_mem_nil, or_false] at hmem
        rcases hmem with ((((h1 | h1) | h1) | h1) | h1) | h1
        · rcases hdr _ h1 with h2 | h2 <;> cases h2
        · rcases h1 with h2 | h2 | h2 <;> cases h2
        · exact Nat.lt_of_lt_of_le (writeBuf_mem_bufEvents colors count i v h1) hbound
        · obtain ⟨w, h2, _⟩ := hrd _ h1
          cases h2
        · cases h1
        · rcases h1 with h2 | h2 | h2 | h2 | h2 <;> cases h2
  · intro l
    obtain ⟨h1, h2, h3⟩ := hloops l
    refine ⟨h1, h2, h3, ?_, ?_, ?_⟩
    · rw [h1, (emits_frame T colors _ l).2.2.2.2.2.2.2]; rfl
    · rw [h2, (emits_frame T colors _ l).2.2.2.2.2.2.2]; rfl
    · rw [h3, (emits_frame T colors _ l).2.2.2.2.2.2.2]; rfl

/-- C17, a run: the full eight pixels on the eight-pixel board, followed for
one poll of each busy-wait. -/
theorem writes_stay_in_bounds_witness :
    (spi_pixl_update board8 fastClock 1 (some (fun i => 0x808080 + i)) 8 idleState).state.oob =
      [] ∧
    (∀ i v, Event.writeBuf i v ∈
        newEvents idleState
          (spi_pixl_update board8 fastClock 1 (some (fun i => 0x808080 + i)) 8 idleState) →
      i < 192) ∧
    (∀ st : State, (encode board8 (fun i => 0x808080 + i) 8 st).spi_idx = 192) := by
  obtain ⟨h1, h2, _, h4, _⟩ := writes_stay_in_bounds board8 fastClock 1
    (fun i => 0x808080 + i) 8 idleState (by decide) (by decide)
  exact ⟨h1, h2, h4⟩

/-! ## Initialisation and the life of the driver -/

theorem systick_init_trace (D : Deps) (b : Board) :
    (systick_init D b).core.trace = b.core.trace ++ [Event.call Callee.systick_init] := rfl

theorem init_dma1_trace (D : Deps) (b : Board) :
    ∃ evs : List Event, evs.length = 9 ∧ (∀ e ∈ evs, ∀ v, e ≠ Event.writeFlag v) ∧
      (_init_dma1 D b).core.trace = b.core.trace ++ evs := by
  refine ⟨_, ?_, ?_, by simp only [_init_dma1, Board.log, State.log, List.append_assoc]; rfl⟩
  · rfl
  · intro e he v
    simp only [List.mem_cons, List.mem_singleton, List.singleton_append, List.cons_append,
      List.nil_append, List.not_mem_nil, or_false] at he
    rcases he with h | h | h | h | h | h | h | h | h <;> rw [h] <;> simp

theorem init_spi0_trace (D : Deps) (b : Board) :
    ∃ evs : List Event, evs.length = 8 ∧ (∀ e ∈ evs, ∀ v, e ≠ Event.writeFlag v) ∧
      (_init_spi0 D b).core.trace = b.core.trace ++ evs := by
  refine ⟨_, ?_, ?_, by simp only [_init_spi0, Board.log, State.log, List.append_assoc]; rfl⟩
  · rfl
  · intro e he v
    simp only [List.mem_cons, List.mem_singleton, List.singleton_append, List.cons_append,
      List.nil_append, List.not_mem_nil, or_false] at he
    rcases he with h | h | h | h | h | h | h | h <;> rw [h] <;> simp

theorem init_flag (D : Deps) (b : Board) :
    (spi_pixl_init D b).core.is_pixel_xmit_complete = true := rfl

theorem init_mux (D : Deps) (b : Board) : muxField (spi_pixl_init D b).core.pcr_mosi = 0 :=
  muxField_clear _

theorem waitXmit_flag_true (env : Env) (fuel k : Nat) (s : State)
    (h : s.is_pixel_xmit_complete = true) :
    waitXmit env (fuel + 1) k s =
      Poll.passed ((if env.irq k = true then DMA1_IRQHandler s else s).log
        (Event.readFlag true)) := by
  by_cases hi : env.irq k = true
  · simp [waitXmit, hi, DMA1_IRQHandler, State.log]
  · simp [waitXmit, hi, h]

/-- C13: from every prior state `spi_pixl_init` leaves the
transmission-complete flag true, and the store of `true` to the flag is its
last event: it comes after the call of `systick_init`, the 9 events of
`_init_dma1` and the 8 events of `_init_spi0`, none of which stores to the
flag.  A first `spi_pixl_update` call therefore leaves the drain loop at its
first read of the flag, and with valid arguments it returns success once the
timer has reached the reset interval. -/
theorem init_sets_flag_last (D : Deps) (b : Board) (T : Target) (env : Env) (fuel : Nat)
    (colors : Nat → Nat) (count : Nat) (k : Nat)
    (hcount : 1 ≤ count) (ht : PIXL_RESET ≤ timerAt env k) (hk : k < fuel) :
    (spi_pixl_init D b).core.is_pixel_xmit_complete = true ∧
    (∃ dma spi : List Event,
      (spi_pixl_init D b).core.trace =
        b.core.trace ++ [Event.call Callee.systick_init] ++ dma ++ spi ++
          [Event.writeFlag true] ∧
      (_init_dma1 D (systick_init D b)).core.trace = (systick_init D b).core.trace ++ dma ∧
      (_init_spi0 D (_init_dma1 D (systick_init D b))).core.trace =
        (_init_dma1 D (systick_init D b)).core.trace ++ spi ∧
      dma.length = 9 ∧ spi.length = 8 ∧
      (∀ e ∈ dma ++ spi, ∀ v, e ≠ Event.writeFlag v)) ∧
    (spi_pixl_init D b).core.trace.getLast? = some (Event.writeFlag true) ∧
    (∃ s1, waitXmit env 1 0 (spi_pixl_init D b).core = Poll.passed s1 ∧
      s1.trace = (spi_pixl_init D b).core.trace ++
        (if env.irq 0 = true then [Event.irq] else []) ++ [Event.readFlag true]) ∧
    (∃ s', spi_pixl_update T env fuel (some colors) count (spi_pixl_init D b).core =
      Outcome.returned 0 s') := by
  obtain ⟨dma, hdl, hdf, hdt⟩ := init_dma1_trace D (systick_init D b)
  obtain ⟨spi, hsl, hsf, hst⟩ := init_spi0_trace D (_init_dma1 D (systick_init D b))
  have hlast : (spi_pixl_init D b).core.trace =
      (_init_spi0 D (_init_dma1 D (systick_init D b))).core.trace ++ [Event.writeFlag true] :=
    rfl
  refine ⟨rfl, ⟨dma, spi, ?_, hdt, hst, hdl, hsl, ?_⟩, ?_, ?_, ?_⟩
  · rw [hlast, hst, hdt, systick_init_trace]
  · intro e he v
    rcases List.mem_append.1 he with h | h
    · exact hdf e h v
    · exact hsf e h v
  · rw [hlast, List.getLast?_append]
    rfl
  · refine ⟨_, waitXmit_flag_true env 0 0 _ (init_flag D b), ?_⟩
    by_cases hi : env.irq 0 = true
    · simp [hi, DMA1_IRQHandler, State.log]
    · simp [hi, State.log]
  · obtain ⟨_, _, _, _, s5, _, _, _, _, _, _, _, _, _, _, hr, _⟩ :=
      update_returns T env fuel colors count (spi_pixl_init D b).core hcount
        (Or.inl (init_flag D b)) ⟨k, hk, ht⟩
    exact ⟨arm T s5, hr⟩

/-- C13, a run: initialisation of a board whose flag was false, then a first
call for 8 pixels. -/
theorem init_sets_flag_last_witness :
    coldBoard.core.is_pixel_xmit_complete = false ∧
    (spi_pixl_init sampleDeps coldBoard).core.is_pixel_xmit_complete = true ∧
    (spi_pixl_init sampleDeps coldBoard).core.trace.getLast? = some (Event.writeFlag true) ∧
    (∃ s', spi_pixl_update board8 slowClock 3 (some (fun _ => 0x00FF00)) 8
      (spi_pixl_init sampleDeps coldBoard).core = Outcome.returned 0 s') := by
  obtain ⟨h1, _, h3, _, h5⟩ := init_sets_flag_last sampleDeps coldBoard board8 slowClock 3
    (fun _ => 0x00FF00) 8 2 (by decide) (by decide) (by decide)
  exact ⟨rfl, h1, h3, h5⟩

/-- The completion handler leaves the flag true and the MUX field 0. -/
theorem handler_flag_iff_mux (s : State) :
    ((DMA1_IRQHandler s).is_pixel_xmit_complete = true ↔
      muxField (DMA1_IRQHandler s).pcr_mosi = 0) := by
  constructor
  · intro _; exact muxField_clear s.pcr_mosi
  · intro _; rfl

/-- A call that returns either changed nothing or left the flag false and the
MUX field `SPI_MUX_ALT`. -/
theorem update_returned_cases (T : Target) (env : Env) (fuel : Nat)
    (colors : Option (Nat → Nat)) (n : Nat) (s s' : State) (r : Int)
    (h : spi_pixl_update T env fuel colors n s = Outcome.returned r s') :
    (r = -1 ∧ s' = s) ∨
      (r = 0 ∧ s'.is_pixel_xmit_complete = false ∧ muxField s'.pcr_mosi = SPI_MUX_ALT) := by
  cases colors with
  | none =>
    simp only [spi_pixl_update, Outcome.returned.injEq] at h
    exact Or.inl ⟨h.1.symm, h.2.symm⟩
  | some c =>
    by_cases hn : n = 0
    · subst hn
      simp only [spi_pixl_update, Nat.le_refl, if_true, Outcome.returned.injEq] at h
      exact Or.inl ⟨h.1.symm, h.2.symm⟩
    · obtain ⟨drain, _, hc⟩ := update_trace T env fuel c n s (Nat.pos_of_ne_zero hn)
      rcases hc with ⟨s2, hr2, _⟩ | ⟨x, reads, _, hc⟩
      · rw [h] at hr2; cases hr2
      · rcases hc with ⟨s2, hr2, _⟩ | ⟨s5, m, hr5, _, hp, _⟩
        · rw [h] at hr2; cases hr2
        · rw [h] at hr5
          simp only [Outcome.returned.injEq] at hr5
          right
          refine ⟨hr5.1, by rw [hr5.2]; rfl, ?_⟩
          rw [hr5.2]
          show muxField (s5.pcr_mosi ||| PORT_PCR_MUX SPI_MUX_ALT) = SPI_MUX_ALT
          rw [hp, muxField_set]

theorem update_null (T : Target) (env : Env) (fuel n : Nat) (s : State) :
    spi_pixl_update T env fuel none n s = Outcome.returned (-1) s := rfl

theorem update_zero (T : Target) (env : Env) (fuel : Nat) (colors : Option (Nat → Nat))
    (s : State) : spi_pixl_update T env fuel colors 0 s = Outcome.returned (-1) s := by
  cases colors <;> rfl

theorem runSteps_nil (T : Target) (s : State) : runSteps T [] s = some s := rfl

theorem runSteps_handler (T : Target) (rest : List Step) (s : State) :
    runSteps T (Step.handler :: rest) s = runSteps T rest (DMA1_IRQHandler s) := rfl

theorem runSteps_update (T : Target) (env : Env) (fuel : Nat) (colors : Option (Nat → Nat))
    (n : Nat) (rest : List Step) (s s' : State) (r : Int)
    (h : spi_pixl_update T env fuel colors n s = Outcome.returned r s') :
    runSteps T (Step.update env fuel colors n :: rest) s = runSteps T rest s' := by
  simp only [runSteps, h]


/-- The relation between flag and MUX field is kept by any sequence of steps. -/
theorem runSteps_flag_iff_mux (T : Target) (steps : List Step) :
    ∀ (s s' : State), (s.is_pixel_xmit_complete = true ↔ muxField s.pcr_mosi = 0) →
      runSteps T steps s = some s' →
      (s'.is_pixel_xmit_complete = true ↔ muxField s'.pcr_mosi = 0) := by
  induction steps with
  | nil =>
    intro s s' hinv h
    simp only [runSteps, Option.some.injEq] at h
    rw [← h]; exact hinv
  | cons st rest ih =>
    intro s s' hinv h
    cases st with
    | handler =>
      simp only [runSteps] at h
      exact ih _ s' (handler_flag_iff_mux s) h
    | update env fuel colors n =>
      simp only [runSteps] at h
      cases hu : spi_pixl_update T env fuel colors n s with
      | spinning s2 => rw [hu] at h; cases h
      | returned r s2 =>
        rw [hu] at h
        simp only at h
        refine ih s2 s' ?_ h
        rcases update_returned_cases T env fuel colors n s s2 r hu with ⟨_, h2⟩ | ⟨_, hf, hm⟩
        · rw [h2]; exact hinv
        · rw [hf, hm]
          constructor
          · intro hc; cases hc
          · intro hc; revert hc; decide

/-- C15: in every state reached from `spi_pixl_init` by a sequence of
`spi_pixl_update` calls (with valid or invalid arguments, each run to its
return) and `DMA1_IRQHandler` runs, the transmission-complete flag is true
if and only if the MUX field of the MOSI pin is 0. -/
theorem flag_true_iff_line_disabled (D : Deps) (b : Board) (T : Target) (steps : List Step)
    (s : State) (h : runSteps T steps (spi_pixl_init D b).core = some s) :
    (s.is_pixel_xmit_complete = true ↔ muxField s.pcr_mosi = 0) := by
  refine runSteps_flag_iff_mux T steps (spi_pixl_init D b).core s ?_ h
  constructor
  · intro _; exact init_mux D b
  · intro _; exact init_flag D b

/-- C15, a run: initialisation, a call with a null pointer, a call for two
pixels, the completion handler, a call with a count of zero. -/
theorem flag_true_iff_line_disabled_witness :
    ∃ s, runSteps board8
        [Step.update fastClock 1 none 5,
         Step.update fastClock 1 (some (fun _ => 0x102030)) 2,
         Step.handler,
         Step.update fastClock 1 (some (fun _ => 0x102030)) 0]
        (spi_pixl_init sampleDeps coldBoard).core = some s ∧
      (s.is_pixel_xmit_complete = true ↔ muxField s.pcr_mosi = 0) := by
  obtain ⟨_, _, _, _, s5, _, _, _, _, _, _, _, _, _, _, hr, _⟩ :=
    update_returns board8 fastClock 1 (fun _ => 0x102030) 2
      (spi_pixl_init sampleDeps coldBoard).core (by decide)
      (Or.inl (init_flag sampleDeps coldBoard)) ⟨0, by decide, by decide⟩
  have hrun : runSteps board8
      [Step.update fastClock 1 none 5,
       Step.update fastClock 1 (some (fun _ => 0x102030)) 2,
       Step.handler,
       Step.update fastClock 1 (some (fun _ => 0x102030)) 0]
      (spi_pixl_init sampleDeps coldBoard).core = some (DMA1_IRQHandler (arm board8 s5)) := by
    rw [runSteps_update board8 fastClock 1 none 5 _ _ _ _ (update_null board8 fastClock 1 5 _),
      runSteps_update board8 fastClock 1 _ 2 _ _ _ _ hr, runSteps_handler,
      runSteps_update board8 fastClock 1 _ 0 _ _ _ _ (update_zero board8 fastClock 1 _ _),
      runSteps_nil]
  exact ⟨_, hrun, flag_true_iff_line_disabled sampleDeps coldBoard board8 _ _ hrun⟩

end SpiPixl
